import Mathlib

/-!
# I2C SD-card protocol client (SDCardFunc.h)

A shallow embedding of the protocol client of `SDCardFunc.h`.  Bytes are natural
numbers (a byte on the wire is a value below 256), C strings are the lists of
their bytes before the terminating NUL, and the Arduino `Wire` object is an
explicit record threaded through every function.  The bus and the peripheral
behind it are a parameter (`Transport`): the functions below are the client
code, statement by statement.  Serial diagnostics and delays are not modelled.
-/

namespace SDCard

/-! ## The bus -/

/-- One completed bus action, as seen on the wire: a write transaction with the
bytes queued for it and whether it ended with STOP (bus release), or a read
request of a number of bytes and whether it ended with STOP. -/
inductive BusEvent where
  | transmit (bytes : List Nat) (stop : Bool)
  | request (quantity : Nat) (stop : Bool)
  deriving DecidableEq, Repr

/-- The bus together with the peer behind it, as a state machine over the peer
state `σ`.  `endTransmission s bytes stop` is the error code of a write
transaction (0 is success); `requestFrom s n stop` are the bytes the peer
delivers to a read of `n` bytes. -/
structure Transport (σ : Type) where
  endTransmission : σ → List Nat → Bool → Nat × σ
  requestFrom : σ → Nat → Bool → List Nat × σ

/-- The `Wire` object: the peer, the transmit buffer filled between
`beginTransmission` and `endTransmission`, the receive buffer filled by
`requestFrom` and drained by `read`, and the record of bus actions so far. -/
structure Wire (σ : Type) where
  peer : σ
  txBuffer : List Nat
  rxBuffer : List Nat
  log : List BusEvent

variable {σ : Type}

/-- `Wire.beginTransmission(I2C_SDCARD)`: start queueing a write transaction. -/
def Wire.beginTransmission (w : Wire σ) : Wire σ :=
  { w with txBuffer := [] }

/-- `Wire.write(b)`: queue one byte. -/
def Wire.write (w : Wire σ) (b : Nat) : Wire σ :=
  { w with txBuffer := w.txBuffer ++ [b] }

/-- `Wire.write(buf, len)` and `Wire.write(str)`: queue a run of bytes. -/
def Wire.writeBytes (w : Wire σ) (bs : List Nat) : Wire σ :=
  { w with txBuffer := w.txBuffer ++ bs }

/-- `Wire.endTransmission(stop)`: send what is queued, empty the transmit buffer
and return the bus error code. -/
def Wire.endTransmission (t : Transport σ) (w : Wire σ) (stop : Bool) : Nat × Wire σ :=
  let r := t.endTransmission w.peer w.txBuffer stop
  (r.1, { w with peer := r.2, txBuffer := [], log := w.log ++ [BusEvent.transmit w.txBuffer stop] })

/-- `Wire.requestFrom(I2C_SDCARD, n, stop)`: the bytes received (never more than
asked for) replace the receive buffer; the count received is returned. -/
def Wire.requestFrom (t : Transport σ) (w : Wire σ) (n : Nat) (stop : Bool) : Nat × Wire σ :=
  let r := t.requestFrom w.peer n stop
  let rx := r.1.take n
  (rx.length, { w with peer := r.2, rxBuffer := rx, log := w.log ++ [BusEvent.request n stop] })

/-- `Wire.read()`: the next received byte, or -1 when the receive buffer is empty. -/
def Wire.read (w : Wire σ) : Int × Wire σ :=
  match w.rxBuffer with
  | [] => (-1, w)
  | b :: rest => ((b : Int), { w with rxBuffer := rest })

/-- `Wire.available()`: how many received bytes are still unread. -/
def Wire.available (w : Wire σ) : Nat := w.rxBuffer.length

/-- `while (Wire.available()) Wire.read();` -/
def Wire.drain (w : Wire σ) : Wire σ := { w with rxBuffer := [] }

/-! ## Machine integers -/

/-- Conversion to `uint8_t`. -/
def toUInt8 (i : Int) : Nat := (i % 256).toNat

/-- Conversion to `uint32_t`. -/
def toUInt32 (i : Int) : Nat := (i % 4294967296).toNat

/-- Conversion of a `uint32_t` value to the 32-bit `int`. -/
def toInt32 (n : Nat) : Int :=
  if n % 4294967296 < 2147483648 then ((n % 4294967296 : Nat) : Int)
  else ((n % 4294967296 : Nat) : Int) - 4294967296

/-! ## storetoSD -/

/-- The filename phase shared by `storetoSD`, `ReadFromSD` and `loadFromI2CSD`:
`Wire.write(filename, strlen(filename))` for short names, byte by byte otherwise. -/
def writeFilename (w : Wire σ) (filename : List Nat) : Wire σ :=
  if filename.length < 31 then w.writeBytes filename
  else filename.foldl Wire.write w

/-- The loop `while (offset < msgLen)` of `storetoSD`, sending the later chunks
with command `'A'` (65).  The first argument bounds the number of iterations;
`storetoSD` passes `msgLen`, which the loop never exhausts since every
iteration advances `offset` by at least one. -/
def storeAppendLoop (t : Transport σ) (msg : List Nat) : Nat → Wire σ → Nat → Wire σ
  | 0, w, _ => w
  | fuel + 1, w, offset =>
    if offset < msg.length then
      let w := w.beginTransmission
      let w := w.write 65
      let bytesToWrite := min 31 (msg.length - offset)
      let w := w.writeBytes ((msg.drop offset).take bytesToWrite)
      let r := Wire.endTransmission t w true
      if r.1 ≠ 0 then r.2
      else storeAppendLoop t msg fuel r.2 (offset + bytesToWrite)
    else w

/-- `storetoSD(filename, command, msg)`. -/
def storetoSD (t : Transport σ) (w : Wire σ) (filename : List Nat) (command : Nat)
    (msg : List Nat) : Wire σ :=
  let w := w.beginTransmission
  let w := w.write 70
  let w := writeFilename w filename
  let r := Wire.endTransmission t w true
  if r.1 ≠ 0 then r.2
  else
    let w := r.2
    let msgLen := msg.length
    if msgLen = 0 then w
    else
      let bufferSize := 31
      let offset := 0
      let w := w.beginTransmission
      let w := w.write command
      let bytesToWrite := min bufferSize (msgLen - offset)
      let w := w.writeBytes ((msg.drop offset).take bytesToWrite)
      let r := Wire.endTransmission t w true
      if r.1 ≠ 0 then r.2
      else storeAppendLoop t msg msgLen r.2 (offset + bytesToWrite)

/-- The chunk transactions the write path is expected to emit for message `msg`
with command byte `c`: chunk `i` carries `c` when `i = 0` and `'A'` otherwise,
followed by bytes `31 i .. 31 i + 31` of the message, and ends with STOP. -/
def expectedChunk (c : Nat) (msg : List Nat) (i : Nat) : BusEvent :=
  BusEvent.transmit ((if i = 0 then c else 65) :: (msg.drop (31 * i)).take 31) true

/-- The payload (all bytes after the command byte) of a write transaction. -/
def BusEvent.payload : BusEvent → List Nat
  | BusEvent.transmit (_ :: bs) _ => bs
  | _ => []

/-! ## ReadFromSD -/

/-- The loop `for (int i = 0; i < 4; i++) size = (size << 8) | Wire.read();`
on a `uint32_t` accumulator: the first argument counts the iterations left. -/
def readSizeMSB : Nat → Wire σ → Nat → Nat × Wire σ
  | 0, w, size => (size, w)
  | k + 1, w, size =>
    let r := w.read
    readSizeMSB k r.2 (((size <<< 8) % 4294967296) ||| toUInt32 r.1)

/-- The exits of `ReadFromSD`, in source order. -/
inductive ReadOutcome where
  | filenameError
  | sizeCommandError
  | sizeShortRead
  | emptyOrNotFound
  | readCommandError
  | notAvailable
  | chunkError
  | fileEnd
  deriving DecidableEq, Repr

/-- What a call of `ReadFromSD` leaves behind: the exit taken, the characters
printed as file content (between the start and end banners) and the bus. -/
structure ReadResult (σ : Type) where
  outcome : ReadOutcome
  content : List Nat
  wire : Wire σ

/-- The loop `for (int i = 0; i < bytesRead; i++)` of `ReadFromSD`: prints one
received character per iteration, or stops when none is available.  The first
argument counts the iterations left; the boolean is false on the error exit. -/
def printChunk : Nat → Wire σ → List Nat → Bool × List Nat × Wire σ
  | 0, w, out => (true, out, w)
  | k + 1, w, out =>
    if w.available ≠ 0 then
      let r := w.read
      printChunk k r.2 (out ++ [toUInt8 r.1])
    else (false, out, w)

/-- The loop `while (bytesRemaining > 0)` of `ReadFromSD`.  The first argument
bounds the iterations; `ReadFromSD` passes `size`, and every iteration that
continues lowers `bytesRemaining` by at least one. -/
def readLoop (t : Transport σ) : Nat → Wire σ → Nat → List Nat → ReadResult σ
  | 0, w, _, out => ⟨ReadOutcome.fileEnd, out, (Wire.endTransmission t w true).2⟩
  | fuel + 1, w, bytesRemaining, out =>
    if bytesRemaining > 0 then
      let bytesToRequest : Int := min (toInt32 bytesRemaining) 32
      let r := Wire.requestFrom t w (toUInt32 bytesToRequest) false
      let bytesRead := r.1 % 256
      if bytesRead > 0 then
        let p := printChunk bytesRead r.2 out
        if p.1 then
          readLoop t fuel p.2.2 ((bytesRemaining + 4294967296 - bytesRead) % 4294967296) p.2.1
        else ⟨ReadOutcome.notAvailable, p.2.1, (Wire.endTransmission t p.2.2 true).2⟩
      else ⟨ReadOutcome.chunkError, out, (Wire.endTransmission t r.2 true).2⟩
    else ⟨ReadOutcome.fileEnd, out, (Wire.endTransmission t w true).2⟩

/-- `ReadFromSD(filename)`. -/
def ReadFromSD (t : Transport σ) (w : Wire σ) (filename : List Nat) : ReadResult σ :=
  let w := w.beginTransmission
  let w := w.write 70
  let w := writeFilename w filename
  let r := Wire.endTransmission t w true
  if r.1 ≠ 0 then ⟨ReadOutcome.filenameError, [], r.2⟩
  else
    let w := r.2.beginTransmission
    let w := w.write 83
    let r := Wire.endTransmission t w false
    if r.1 ≠ 0 then ⟨ReadOutcome.sizeCommandError, [], r.2⟩
    else
      let q := Wire.requestFrom t r.2 4 true
      let bytesRead := q.1 % 256
      if bytesRead = 4 then
        let s := readSizeMSB 4 q.2 0
        let size := s.1
        if size = 0 then ⟨ReadOutcome.emptyOrNotFound, [], s.2⟩
        else
          let w := s.2.beginTransmission
          let w := w.write 82
          let r := Wire.endTransmission t w false
          if r.1 ≠ 0 then ⟨ReadOutcome.readCommandError, [], r.2⟩
          else readLoop t size r.2 size []
      else ⟨ReadOutcome.sizeShortRead, [], q.2.drain⟩

/-! ## GetFileSize, checkExists, removeFile, mkdir, rmdir -/

/-- `GetFileSize(filename)`: the returned `int` and the bus afterwards. -/
def GetFileSize (t : Transport σ) (w : Wire σ) (filename : List Nat) : Int × Wire σ :=
  let w := w.beginTransmission
  let w := w.write 70
  let w := w.writeBytes filename
  let r := Wire.endTransmission t w true
  if r.1 ≠ 0 then (-1, r.2)
  else
    let w := r.2.beginTransmission
    let w := w.write 83
    let r := Wire.endTransmission t w false
    if r.1 ≠ 0 then (-1, r.2)
    else
      let q := Wire.requestFrom t r.2 4 true
      let bytesRead := q.1 % 256
      if bytesRead = 4 then
        let s := readSizeMSB 4 q.2 0
        (toInt32 s.1, s.2)
      else (-1, q.2.drain)

/-- `sendFilename(filename)`. -/
def sendFilename (t : Transport σ) (w : Wire σ) (filename : List Nat) : Bool × Wire σ :=
  let w := w.beginTransmission
  let w := w.write 70
  let w := w.writeBytes filename
  let r := Wire.endTransmission t w true
  if r.1 ≠ 0 then (false, r.2)
  else (true, r.2)

/-- `checkExists(path, isDirectory)`. -/
def checkExists (t : Transport σ) (w : Wire σ) (path : List Nat) (isDirectory : Bool) :
    Bool × Wire σ :=
  let f := sendFilename t w path
  if !f.1 then (false, f.2)
  else
    let w := f.2.beginTransmission
    let w := w.write (if isDirectory then 75 else 69)
    let r := Wire.endTransmission t w false
    if r.1 ≠ 0 then (false, (Wire.endTransmission t r.2 true).2)
    else
      let q := Wire.requestFrom t r.2 1 true
      let bytesReceived := q.1 % 256
      if bytesReceived = 1 then
        let rd := q.2.read
        let result := toUInt8 rd.1
        if result = 1 then (true, (Wire.endTransmission t rd.2 true).2)
        else (false, (Wire.endTransmission t rd.2 true).2)
      else (false, (Wire.endTransmission t q.2 true).2)

/-- `removeFile(filename)`. -/
def removeFile (t : Transport σ) (w : Wire σ) (filename : List Nat) : Bool × Wire σ :=
  let w := w.beginTransmission
  let w := w.write 70
  let w := w.writeBytes filename
  let r := Wire.endTransmission t w true
  if r.1 ≠ 0 then (false, r.2)
  else
    let w := r.2.beginTransmission
    let w := w.write 88
    let r := Wire.endTransmission t w false
    if r.1 ≠ 0 then (false, r.2)
    else
      let q := Wire.requestFrom t r.2 1 true
      let bytesRead := q.1 % 256
      if bytesRead = 1 then
        let rd := q.2.read
        let success : Bool := decide (rd.1 = 1)
        if success then (true, rd.2) else (false, rd.2)
      else (false, q.2.drain)

/-- `mkdir(dirname)`. -/
def mkdir (t : Transport σ) (w : Wire σ) (dirname : List Nat) : Bool × Wire σ :=
  let w := w.beginTransmission
  let w := w.write 70
  let w := w.writeBytes dirname
  let r := Wire.endTransmission t w true
  if r.1 ≠ 0 then (false, r.2)
  else
    let w := r.2.beginTransmission
    let w := w.write 77
    let r := Wire.endTransmission t w false
    if r.1 ≠ 0 then (false, r.2)
    else
      let q := Wire.requestFrom t r.2 1 true
      let bytesRead := q.1 % 256
      if bytesRead = 1 then
        let rd := q.2.read
        let success : Bool := decide (rd.1 = 1)
        if success then (true, rd.2) else (true, rd.2)
      else (false, q.2.drain)

/-- `rmdir(dirname)`. -/
def rmdir (t : Transport σ) (w : Wire σ) (dirname : List Nat) : Bool × Wire σ :=
  let w := w.beginTransmission
  let w := w.write 70
  let w := w.writeBytes dirname
  let r := Wire.endTransmission t w true
  if r.1 ≠ 0 then (false, r.2)
  else
    let w := r.2.beginTransmission
    let w := w.write 68
    let r := Wire.endTransmission t w false
    if r.1 ≠ 0 then (false, r.2)
    else
      let q := Wire.requestFrom t r.2 1 true
      let bytesRead := q.1 % 256
      if bytesRead = 1 then
        let rd := q.2.read
        let success : Bool := decide (rd.1 = 1)
        if success then (true, rd.2) else (false, rd.2)
      else (false, q.2.drain)

/-! ## parseDirStream -/

/-- The bus together with the two global listing vectors `fileNames`
(name, size) and `directoryNames`. -/
structure Listing (σ : Type) where
  wire : Wire σ
  fileNames : List (List Nat × Nat)
  directoryNames : List (List Nat)

/-- The loop `while (!nameDone)` of `parseDirStream`.  It has no bound in the
source, so the first argument is fuel and `none` means the fuel ran out.  The
result is the flag `receiving`, the name read so far and the bus. -/
def readEntryName (t : Transport σ) : Nat → Wire σ → List Nat → Option (Bool × List Nat × Wire σ)
  | 0, _, _ => none
  | fuel + 1, w, entryName =>
    let r := Wire.requestFrom t w 1 false
    if r.1 % 256 = 1 then
      let rd := r.2.read
      let c := toUInt8 rd.1
      if c = 0 then some (true, entryName, rd.2)
      else readEntryName t fuel rd.2 (entryName ++ [c])
    else some (false, entryName, r.2)

/-- The loop `for (int i = 0; i < 4; i++) entrySize |= (uint32_t)Wire.read() << (8 * i);`
with the iterations left, the index `i`, the bus and the accumulator. -/
def readSizeLSB : Nat → Nat → Wire σ → Nat → Nat × Wire σ
  | 0, _, w, entrySize => (entrySize, w)
  | k + 1, i, w, entrySize =>
    let r := w.read
    readSizeLSB k (i + 1) r.2 (entrySize ||| ((toUInt32 r.1 <<< (8 * i)) % 4294967296))

/-- The loop `for (int i = 0; i < 4; i++) Wire.read();` discarding a directory's size. -/
def discardBytes : Nat → Wire σ → Wire σ
  | 0, w => w
  | k + 1, w => discardBytes k w.read.2

/-- The loop `while (receiving)` of `parseDirStream`; `none` means the fuel ran
out.  Every exit of the loop returns the listing as it then stands. -/
def parseLoop (t : Transport σ) : Nat → Listing σ → Option (Listing σ)
  | 0, _ => none
  | fuel + 1, st =>
    let r := Wire.requestFrom t st.wire 1 false
    if r.1 % 256 = 1 then
      let rd := r.2.read
      let entryType := toUInt8 rd.1
      if entryType = 255 then some { st with wire := rd.2 }
      else if entryType ≠ 70 ∧ entryType ≠ 68 then some { st with wire := rd.2 }
      else
        match readEntryName t fuel rd.2 [] with
        | none => none
        | some (receiving, entryName, w) =>
          if !receiving then some { st with wire := w }
          else if entryType = 70 then
            let q := Wire.requestFrom t w 4 false
            if q.1 % 256 = 4 then
              let s := readSizeLSB 4 0 q.2 0
              parseLoop t fuel
                { wire := s.2, fileNames := st.fileNames ++ [(entryName, s.1)],
                  directoryNames := st.directoryNames }
            else some { st with wire := q.2 }
          else
            let q := Wire.requestFrom t w 4 false
            if q.1 % 256 = 4 then
              parseLoop t fuel
                { wire := discardBytes 4 q.2, fileNames := st.fileNames,
                  directoryNames := st.directoryNames ++ [entryName] }
            else some { st with wire := q.2 }
    else some { st with wire := r.2 }

/-- `parseDirStream()`: clears both vectors, runs the loop and ends with
`Wire.endTransmission()`. -/
def parseDirStream (t : Transport σ) (fuel : Nat) (st : Listing σ) : Option (Listing σ) :=
  match parseLoop t fuel { st with fileNames := [], directoryNames := [] } with
  | none => none
  | some st' => some { st' with wire := (Wire.endTransmission t st'.wire true).2 }

/-! ## A model peripheral -/

/-- Modelled from the spec: the peripheral firmware is not part of the source;
this is the file store the protocol talks to.  `files` maps a path to its
content (an absent file has empty content), `selected` is the path chosen by the
last `'F'` transaction and `pending` are the bytes queued to answer reads. -/
structure Peripheral where
  files : List Nat → List Nat
  selected : List Nat
  pending : List Nat

/-- The four bytes of a 32-bit value, most significant first (the `'S'` answer). -/
def sizeBytesMSB (n : Nat) : List Nat :=
  [n / 16777216 % 256, n / 65536 % 256, n / 256 % 256, n % 256]

/-- Modelled from the spec: what a write transaction does to the peripheral.
`'F'` (70) selects a path, `'W'` (87) replaces the selected file's content with
the payload, `'A'` (65) appends the payload, `'S'` (83) queues the file length
and `'R'` (82) queues the content; anything else changes nothing. -/
def Peripheral.onTransmit (p : Peripheral) : List Nat → Peripheral
  | [] => p
  | cmd :: payload =>
    if cmd = 70 then { p with selected := payload }
    else if cmd = 87 then { p with files := Function.update p.files p.selected payload }
    else if cmd = 65 then
      { p with files := Function.update p.files p.selected (p.files p.selected ++ payload) }
    else if cmd = 83 then { p with pending := sizeBytesMSB (p.files p.selected).length }
    else if cmd = 82 then { p with pending := p.files p.selected }
    else p

/-- Modelled from the spec: the model peripheral on an error-free bus.  Every
write transaction succeeds and a read of `n` bytes delivers the next `n` queued
bytes. -/
def modelPeripheral : Transport Peripheral where
  endTransmission p bytes _ := (0, p.onTransmit bytes)
  requestFrom p n _ := (p.pending.take n, { p with pending := p.pending.drop n })

/-! ## The directory stream -/

/-- One entry of a directory listing as the peer streams it: a file or a
directory, its name and its size field. -/
structure DirEntry where
  isFile : Bool
  name : List Nat
  size : Nat

/-- The four bytes of a 32-bit value, least significant first. -/
def sizeBytesLSB (n : Nat) : List Nat :=
  [n % 256, n / 256 % 256, n / 65536 % 256, n / 16777216 % 256]

/-- Wire format of an entry: type byte `'F'` (70) or `'D'` (68), the name, NUL,
and four size bytes least significant first. -/
def DirEntry.encode (e : DirEntry) : List Nat :=
  (if e.isFile then 70 else 68) :: (e.name ++ 0 :: sizeBytesLSB e.size)

/-- Wire format of a run of entries. -/
def encodeEntries (es : List DirEntry) : List Nat :=
  (es.map DirEntry.encode).flatten

/-- An entry whose name is a NUL-free byte string and whose size is a 32-bit value. -/
def DirEntry.wellFormed (e : DirEntry) : Prop :=
  (∀ c ∈ e.name, c ≠ 0 ∧ c < 256) ∧ e.size < 4294967296

/-- The read requests that fetch one complete entry: one byte for the type, one
byte per name character and for the NUL, then four bytes, none releasing the bus. -/
def DirEntry.requests (e : DirEntry) : List BusEvent :=
  List.replicate (e.name.length + 2) (BusEvent.request 1 false) ++ [BusEvent.request 4 false]

/-- The (name, size) pairs of the file entries, in stream order. -/
def filesOf (es : List DirEntry) : List (List Nat × Nat) :=
  (es.filter (fun e => e.isFile)).map (fun e => (e.name, e.size))

/-- The names of the directory entries, in stream order. -/
def directoriesOf (es : List DirEntry) : List (List Nat) :=
  (es.filter (fun e => !e.isFile)).map (fun e => e.name)

/-- A peer that streams a fixed sequence of bytes: a read of `n` bytes delivers
the next `n` bytes of the stream (fewer when the stream runs dry), and write
transactions succeed without effect. -/
def streamPeer : Transport (List Nat) where
  endTransmission s _ _ := (0, s)
  requestFrom s n _ := (s.take n, s.drop n)

/-- Where an entry is cut short: before its type byte, inside its name (after
the type byte and some name bytes, before the NUL), or inside its size field
(after the NUL and fewer than four size bytes). -/
inductive ShortEntry where
  | atType
  | atName (isFile : Bool) (namePrefix : List Nat)
  | atSize (isFile : Bool) (name : List Nat) (sizePrefix : List Nat)

/-- The bytes a cut-short entry still delivers. -/
def ShortEntry.bytes : ShortEntry → List Nat
  | ShortEntry.atType => []
  | ShortEntry.atName isFile namePrefix => (if isFile then 70 else 68) :: namePrefix
  | ShortEntry.atSize isFile name sizePrefix =>
    (if isFile then 70 else 68) :: (name ++ 0 :: sizePrefix)

/-- Name bytes are NUL-free bytes and the size field is cut to fewer than four bytes. -/
def ShortEntry.wellFormed : ShortEntry → Prop
  | ShortEntry.atType => True
  | ShortEntry.atName _ namePrefix => ∀ c ∈ namePrefix, c ≠ 0 ∧ c < 256
  | ShortEntry.atSize _ name sizePrefix =>
    (∀ c ∈ name, c ≠ 0 ∧ c < 256) ∧ sizePrefix.length < 4

/-- The read requests made on a cut-short entry, the last one being the short read. -/
def ShortEntry.requests : ShortEntry → List BusEvent
  | ShortEntry.atType => [BusEvent.request 1 false]
  | ShortEntry.atName _ namePrefix =>
    List.replicate (namePrefix.length + 2) (BusEvent.request 1 false)
  | ShortEntry.atSize _ name _ =>
    List.replicate (name.length + 2) (BusEvent.request 1 false) ++ [BusEvent.request 4 false]

instance (e : DirEntry) : Decidable e.wellFormed :=
  inferInstanceAs (Decidable ((∀ c ∈ e.name, c ≠ 0 ∧ c < 256) ∧ e.size < 4294967296))

instance : (sr : ShortEntry) → Decidable sr.wellFormed
  | ShortEntry.atType => inferInstanceAs (Decidable True)
  | ShortEntry.atName _ p => inferInstanceAs (Decidable (∀ c ∈ p, c ≠ 0 ∧ c < 256))
  | ShortEntry.atSize _ n sp =>
    inferInstanceAs (Decidable ((∀ c ∈ n, c ≠ 0 ∧ c < 256) ∧ sp.length < 4))

/-! ## The peer's answers in a path-command-response exchange -/

/-- Error code the peer gives to the path transaction `'F' ++ path` (ended with
STOP) when it is in state `s`. -/
def Transport.pathError (t : Transport σ) (s : σ) (path : List Nat) : Nat :=
  (t.endTransmission s (70 :: path) true).1

/-- Error code the peer gives to the one-byte command transaction `cmd` (bus
held) that follows the path transaction. -/
def Transport.commandError (t : Transport σ) (s : σ) (path : List Nat) (cmd : Nat) : Nat :=
  (t.endTransmission (t.endTransmission s (70 :: path) true).2 [cmd] false).1

/-- The bytes received by a read of `n` bytes (ended with STOP) that follows the
path transaction and the command transaction `cmd`. -/
def Transport.response (t : Transport σ) (s : σ) (path : List Nat) (cmd n : Nat) : List Nat :=
  ((t.requestFrom (t.endTransmission (t.endTransmission s (70 :: path) true).2 [cmd] false).2
    n true).1).take n

/-! ## setSDCardTime -/

/-- `setSDCardTime(year, month, day, hour, minute, second)`: one write
transaction, the year sent as `(uint8_t)(year % 100)`. -/
def setSDCardTime (t : Transport σ) (w : Wire σ) (year month day hour minute second : Nat) :
    Wire σ :=
  let w := w.beginTransmission
  let w := w.write 67
  let w := w.write (toUInt8 ((year % 100 : Nat) : Int))
  let w := w.write month
  let w := w.write day
  let w := w.write hour
  let w := w.write minute
  let w := w.write second
  (Wire.endTransmission t w true).2

/-! ## getvolsize -/

/-- Conversion to `uint64_t`. -/
def toUInt64 (n : Nat) : Nat := n % 18446744073709551616

/-- The expression `(uint64_t)volClusters * volBlocks * 512` of `getvolsize`,
evaluated left to right in 64-bit unsigned arithmetic. -/
def totalBytes (volClusters volBlocks : Nat) : Nat :=
  toUInt64 (toUInt64 (toUInt64 volClusters * volBlocks) * 512)

/-- The exits of `getvolsize`, with what each one prints: the decoded fields and,
when both counts are non-zero, the capacity on success; the status byte on an
unexpected status; the count received on a short read. -/
inductive VolumeOutcome where
  | commandError
  | success (fatType volBlocks volClusters : Nat) (capacity : Option Nat)
  | peerFailure
  | unexpectedStatus (status : Nat)
  | shortRead (bytesRead : Nat)
  deriving DecidableEq, Repr

/-- The loop `for (int i = 0; i < 9 && Wire.available(); ++i) Wire.read();`,
with the iterations left. -/
def consumeAvailable : Nat → Wire σ → Wire σ
  | 0, w => w
  | k + 1, w => if w.available ≠ 0 then consumeAvailable k w.read.2 else w

/-- `getvolsize()`.  The two 4-byte fields are assembled by the same loop as an
entry size in `parseDirStream` (`x |= (uint32_t)Wire.read() << (i * 8)`). -/
def getvolsize (t : Transport σ) (w : Wire σ) : VolumeOutcome × Wire σ :=
  let w := w.beginTransmission
  let w := w.write 86
  let r := Wire.endTransmission t w false
  if r.1 ≠ 0 then (VolumeOutcome.commandError, r.2)
  else
    let q := Wire.requestFrom t r.2 10 true
    let bytesRead := q.1 % 256
    if bytesRead = 10 then
      let rd := q.2.read
      let status := toUInt8 rd.1
      if status = 1 then
        let f := rd.2.read
        let fatType := toUInt8 f.1
        let b := readSizeLSB 4 0 f.2 0
        let c := readSizeLSB 4 0 b.2 0
        let volBlocks := b.1
        let volClusters := c.1
        (VolumeOutcome.success fatType volBlocks volClusters
          (if volBlocks > 0 ∧ volClusters > 0 then some (totalBytes volClusters volBlocks)
           else none), c.2)
      else if status = 255 then (VolumeOutcome.peerFailure, consumeAvailable 9 rd.2)
      else (VolumeOutcome.unexpectedStatus status, rd.2.drain)
    else (VolumeOutcome.shortRead bytesRead, q.2.drain)

/-! ## Link health -/

/-- The globals `Detected_i2cSDCard` and `i2cSDCarderrcnt` (a `uint8_t`). -/
structure LinkHealth where
  Detected_i2cSDCard : Bool
  i2cSDCarderrcnt : Nat
  deriving DecidableEq, Repr

/-- The statement `i2cSDCarderrcnt++` on the `uint8_t` counter. -/
def LinkHealth.countError (h : LinkHealth) : LinkHealth :=
  { h with i2cSDCarderrcnt := (h.i2cSDCarderrcnt + 1) % 256 }

/-- The probe at the start of `loadFromI2CSD`: an empty transaction; on success
presence is set, on failure presence is cleared and the function returns false
once the count is above 5, and the count is incremented otherwise.  The boolean
is false when `loadFromI2CSD` returns at this point. -/
def loadProbe (t : Transport σ) (w : Wire σ) (h : LinkHealth) : Bool × LinkHealth × Wire σ :=
  let w := w.beginTransmission
  let r := Wire.endTransmission t w true
  let errorsd := r.1
  if errorsd = 0 then (true, { h with Detected_i2cSDCard := true }, r.2)
  else if h.i2cSDCarderrcnt > 5 then (false, { h with Detected_i2cSDCard := false }, r.2)
  else (true, h.countError, r.2)

/-- The probe on the path-failure branch of `listDirectory_HTML`: an empty
transaction; on success presence is set, on failure presence is cleared once the
count is above 5 and the count is incremented in either case. -/
def htmlProbe (t : Transport σ) (w : Wire σ) (h : LinkHealth) : LinkHealth × Wire σ :=
  let w := w.beginTransmission
  let r := Wire.endTransmission t w true
  let errorsd := r.1
  if errorsd = 0 then ({ h with Detected_i2cSDCard := true }, r.2)
  else
    let h := if h.i2cSDCarderrcnt > 5 then { h with Detected_i2cSDCard := false } else h
    (h.countError, r.2)

/-- One probe of `loadFromI2CSD` as a step on the bus and the globals. -/
def loadProbeStep (t : Transport σ) (x : Wire σ × LinkHealth) : Wire σ × LinkHealth :=
  ((loadProbe t x.1 x.2).2.2, (loadProbe t x.1 x.2).2.1)

/-- One probe of `listDirectory_HTML` as a step on the bus and the globals. -/
def htmlProbeStep (t : Transport σ) (x : Wire σ × LinkHealth) : Wire σ × LinkHealth :=
  ((htmlProbe t x.1 x.2).2, (htmlProbe t x.1 x.2).1)

/-- A peer that is absent: every write transaction fails with error 2 (address
not acknowledged) and every read delivers nothing. -/
def deadPeer : Transport Unit where
  endTransmission _ _ _ := (2, ())
  requestFrom _ _ _ := ([], ())

/-- A peer whose write transactions return the error codes of a fixed script,
one after the other, and succeed once the script is used up; reads deliver
nothing. -/
def flakyPeer : Transport (List Nat) where
  endTransmission s _ _ := (s.headD 0, s.tail)
  requestFrom s _ _ := ([], s)

/-- A peer that answers each read with the next answer of a fixed script,
whatever count was asked for (the bus hands over at most the count asked for);
write transactions succeed. -/
def scriptPeer : Transport (List (List Nat)) where
  endTransmission s _ _ := (0, s)
  requestFrom s _ _ := (s.headD [], s.tail)

/-! ## loadFromI2CSD -/

/-- `dirListFromSD(dirname)`: the path transaction, the `'L'` (76) command with
the bus held, then `parseDirStream`; `none` means the fuel of the name loop ran
out. -/
def dirListFromSD (t : Transport σ) (fuel : Nat) (st : Listing σ) (dirname : List Nat) :
    Option (Listing σ) :=
  let w := st.wire.beginTransmission
  let w := w.write 70
  let w := w.writeBytes dirname
  let r := Wire.endTransmission t w true
  if r.1 ≠ 0 then some { st with wire := r.2 }
  else
    let w := r.2.beginTransmission
    let w := w.write 76
    let r := Wire.endTransmission t w false
    if r.1 ≠ 0 then some { st with wire := r.2 }
    else parseDirStream t fuel { st with wire := r.2 }

/-- A row printed by `listDirectory`: the type byte, the size (shown for a file
only) and the name. -/
structure PrintedRow where
  entryType : Nat
  entrySize : Nat
  entryName : List Nat
  deriving DecidableEq, Repr

/-- The loop `while (true)` of `listDirectory`, with the rows printed so far.
The name loop is the one of `parseDirStream` (`readEntryName`), here followed by
a release and a return when a name byte is missing.  Neither loop has a bound in
the source, so the first argument is fuel and `none` means it ran out.  On the
end marker the loop releases the bus and the function releases it once more. -/
def listLoop (t : Transport σ) : Nat → Wire σ → List PrintedRow →
    Option (List PrintedRow × Wire σ)
  | 0, _, _ => none
  | fuel + 1, w, rows =>
    let r := Wire.requestFrom t w 1 false
    if r.1 % 256 ≠ 1 then some (rows, (Wire.endTransmission t r.2 true).2)
    else
      let rd := r.2.read
      let entryType := toUInt8 rd.1
      if entryType = 255 then
        some (rows, (Wire.endTransmission t (Wire.endTransmission t rd.2 true).2 true).2)
      else
        match readEntryName t fuel rd.2 [] with
        | none => none
        | some (received, entryName, w) =>
          if !received then some (rows, (Wire.endTransmission t w true).2)
          else
            let q := Wire.requestFrom t w 4 false
            if q.1 % 256 = 4 then
              let s := readSizeLSB 4 0 q.2 0
              listLoop t fuel s.2 (rows ++ [⟨entryType, s.1, entryName⟩])
            else some (rows, (Wire.endTransmission t q.2 true).2)

/-- `listDirectory(dirname)`: the rows it prints, and the bus and the two global
vectors afterwards. -/
def listDirectory (t : Transport σ) (fuel : Nat) (st : Listing σ) (dirname : List Nat) :
    Option (List PrintedRow × Listing σ) :=
  let f := sendFilename t st.wire dirname
  if !f.1 then some ([], { st with wire := f.2 })
  else
    let w := f.2.beginTransmission
    let w := w.write 76
    let r := Wire.endTransmission t w false
    if r.1 ≠ 0 then some ([], { st with wire := r.2 })
    else
      match listLoop t fuel r.2 [] with
      | none => none
      | some (rows, w) => some (rows, { st with wire := w })

/-! ## listDirectory_HTML -/

/-- An element of the array `entries` of `listDirectory_HTML`. -/
structure Entry where
  entryType : Nat
  entryName : List Nat
  entrySize : Nat
  deriving DecidableEq, Repr

/-- The name loop of `listDirectory_HTML`: the characters stored in
`entryNameBuf` so far (their number is `nameIdx`) and the counter `nameTimeout`.
The loop leaves on a missing byte, on NUL, or once `++nameTimeout > 64`; the
first argument bounds the iterations and `listDirectory_HTML` passes 65, which
the counter never lets the loop exhaust. -/
def htmlNameLoop (t : Transport σ) : Nat → Wire σ → List Nat → Int → List Nat × Wire σ
  | 0, w, entryNameBuf, _ => (entryNameBuf, w)
  | fuel + 1, w, entryNameBuf, nameTimeout =>
    let r := Wire.requestFrom t w 1 false
    if r.1 % 256 ≠ 1 then (entryNameBuf, r.2)
    else
      let rd := r.2.read
      let c := toUInt8 rd.1
      if c = 0 then (entryNameBuf, rd.2)
      else
        let entryNameBuf := if entryNameBuf.length < 31 then entryNameBuf ++ [c] else entryNameBuf
        if nameTimeout + 1 > 64 then (entryNameBuf, rd.2)
        else htmlNameLoop t fuel rd.2 entryNameBuf (nameTimeout + 1)

/-- The loop `while (totalEntries < maxEntries)` of `listDirectory_HTML`
(`maxEntries` is 128), with the entries collected so far.  Every iteration that
continues stores one entry, so the first argument, 128 at the call, bounds the
iterations.  After a name the four size bytes are requested whatever ended the
name loop, and the entry is stored whether or not they arrived. -/
def collectLoop (t : Transport σ) : Nat → Wire σ → List Entry → List Entry × Wire σ
  | 0, w, entries => (entries, w)
  | fuel + 1, w, entries =>
    if entries.length < 128 then
      let r := Wire.requestFrom t w 1 false
      if r.1 % 256 ≠ 1 then (entries, r.2)
      else
        let rd := r.2.read
        let entryType := toUInt8 rd.1
        if entryType = 255 then (entries, rd.2)
        else
          let n := htmlNameLoop t 65 rd.2 [] 0
          let q := Wire.requestFrom t n.2 4 false
          let s := if q.1 % 256 = 4 then readSizeLSB 4 0 q.2 0 else (0, q.2)
          collectLoop t fuel s.2 (entries ++ [⟨entryType, n.1, s.1⟩])
    else (entries, w)

/-- The exits of `listDirectory_HTML`: the path could not be set, the `'L'`
command failed, or the table was produced. -/
inductive HtmlOutcome where
  | pathError
  | commandError (error : Nat)
  | listed
  deriving DecidableEq, Repr

/-- What a call of `listDirectory_HTML` leaves behind: the exit taken, the
entries collected, the bus and the link-health globals.  The page text is a
function of the collected entries and is not part of this record. -/
structure HtmlResult (σ : Type) where
  outcome : HtmlOutcome
  entries : List Entry
  wire : Wire σ
  health : LinkHealth

/-- `listDirectory_HTML(dirname, page, perPage)`, up to the end of the
collection loop; nothing after that loop touches the bus. -/
def listDirectory_HTML (t : Transport σ) (w : Wire σ) (h : LinkHealth) (dirname : List Nat) :
    HtmlResult σ :=
  let f := sendFilename t w dirname
  if !f.1 then
    let p := htmlProbe t f.2 h
    ⟨HtmlOutcome.pathError, [], p.2, p.1⟩
  else
    let w := f.2.beginTransmission
    let r := Wire.endTransmission t w true
    let w := r.2.beginTransmission
    let w := w.write 76
    let r := Wire.endTransmission t w false
    if r.1 ≠ 0 then ⟨HtmlOutcome.commandError r.1, [], r.2, h⟩
    else
      let c := collectLoop t 128 r.2 []
      ⟨HtmlOutcome.listed, c.1, c.2, h⟩

/-! ## The bus-held flag -/

/-- The bus-held flag after a record of bus actions: set by a write transaction
or a read request that ends without STOP, cleared by one that ends with STOP;
the bus starts released. -/
def busHeld (log : List BusEvent) : Bool :=
  match log.getLast? with
  | none => false
  | some (BusEvent.transmit _ stop) => !stop
  | some (BusEvent.request _ stop) => !stop

/-! ## A peripheral answering existence queries -/

/-- Modelled from the spec: the peripheral firmware is not part of the source.
A peripheral whose filesystem state is `fs`; `selected` is the path chosen by
the last `'F'` transaction and `pending` are the bytes queued to answer reads. -/
structure ExistsPeripheral (φ : Type) where
  fs : φ
  selected : List Nat
  pending : List Nat

/-- Modelled from the spec: what a write transaction does to the peripheral
whose answer to an existence query is the function `answer` of the filesystem
state, the selected path and the kind asked for.  `'F'` (70) selects a path,
`'E'` (69) queues the answer for a file and `'K'` (75) for a directory; no
transaction changes the filesystem state. -/
def ExistsPeripheral.onTransmit {φ : Type} (answer : φ → List Nat → Bool → Nat)
    (p : ExistsPeripheral φ) : List Nat → ExistsPeripheral φ
  | [] => p
  | cmd :: payload =>
    if cmd = 70 then { p with selected := payload }
    else if cmd = 69 then { p with pending := [answer p.fs p.selected false] }
    else if cmd = 75 then { p with pending := [answer p.fs p.selected true] }
    else p

/-- Modelled from the spec: the existence-query peripheral on an error-free bus.
Every write transaction succeeds and a read of `n` bytes delivers the next `n`
queued bytes. -/
def existsPeripheral {φ : Type} (answer : φ → List Nat → Bool → Nat) :
    Transport (ExistsPeripheral φ) where
  endTransmission p bytes _ := (0, p.onTransmit answer bytes)
  requestFrom p n _ := (p.pending.take n, { p with pending := p.pending.drop n })

/-! ## Chunk requests of the read path -/

/-- The data requests expected for a file of `n` bytes: `n / 32` requests of 32
bytes and then one of `n % 32` bytes when that is not zero, none of them
releasing the bus. -/
def expectedRequests (n : Nat) : List BusEvent :=
  List.replicate (n / 32) (BusEvent.request 32 false)
    ++ (if n % 32 = 0 then [] else [BusEvent.request (n % 32) false])

/-- The number of bytes a read request asks for (0 for a write transaction). -/
def BusEvent.quantity : BusEvent → Nat
  | BusEvent.request n _ => n
  | BusEvent.transmit _ _ => 0

/-- A peer that always delivers the full count asked for and reports the file
size `0x80000000`: a read of 4 bytes is answered `80 00 00 00`, a read of any
other count `k` with `k` zero bytes; write transactions succeed. -/
def sizedPeer : Transport Unit where
  endTransmission _ _ _ := (0, ())
  requestFrom _ k _ := (if k = 4 then [128, 0, 0, 0] else List.replicate k 0, ())

/-- A peer that never ends a name: every read is answered with the byte `A`;
write transactions succeed. -/
def stuckPeer : Transport Unit where
  endTransmission _ _ _ := (0, ())
  requestFrom _ _ _ := ([65], ())

/-! ## Pagination of listDirectory_HTML -/

/-- The value of an `int` expression: the exact result wrapped to the 32-bit
two's-complement range. -/
def wrapInt (i : Int) : Int := toInt32 (toUInt32 i)

/-- `int startIdx = (page - 1) * perPage;` -/
def startIdx (page perPage : Int) : Int := wrapInt (wrapInt (page - 1) * perPage)

/-- `int endIdx = page * perPage;` -/
def endIdx (page perPage : Int) : Int := wrapInt (page * perPage)

/-- `int totalPages = (totalEntries + perPage - 1) / perPage;` with the division
of C, which truncates towards zero. -/
def totalPages (totalEntries perPage : Int) : Int :=
  wrapInt (Int.tdiv (wrapInt (wrapInt (totalEntries + perPage) - 1)) perPage)

/-- The loop `for (int i = startIdx; i < endIdx && i < totalEntries; i++)`: the
indices `i` at which `entries[i]` is displayed, in order.  The increment cannot
overflow, `i` being below `totalEntries`; the first argument bounds the
iterations. -/
def displayLoop (endIdx totalEntries : Int) : Nat → Int → List Int
  | 0, _ => []
  | fuel + 1, i =>
    if i < endIdx ∧ i < totalEntries then i :: displayLoop endIdx totalEntries fuel (i + 1)
    else []

/-- The indices of the entries shown on page `page`: none when nothing was
collected, those of the display loop otherwise.  The loop runs at most
`totalEntries - startIdx` times. -/
def displayedIndices (page perPage totalEntries : Int) : List Int :=
  if totalEntries = 0 then []
  else displayLoop (endIdx page perPage) totalEntries
    (totalEntries - startIdx page perPage).toNat (startIdx page perPage)

/-! # Theorems -/

/-! ## Bus primitives -/

theorem endTransmission_fst (t : Transport σ) (w : Wire σ) (stop : Bool) :
    (Wire.endTransmission t w stop).1 = (t.endTransmission w.peer w.txBuffer stop).1 := rfl

theorem endTransmission_log (t : Transport σ) (w : Wire σ) (stop : Bool) :
    (Wire.endTransmission t w stop).2.log = w.log ++ [BusEvent.transmit w.txBuffer stop] := rfl

theorem toUInt8_natCast (b : Nat) (h : b < 256) : toUInt8 (b : Int) = b := by
  unfold toUInt8; omega

theorem toUInt32_natCast (b : Nat) (h : b < 4294967296) : toUInt32 (b : Int) = b := by
  unfold toUInt32; omega

theorem toInt32_small (n : Nat) (h : n < 2147483648) : toInt32 n = n := by
  unfold toInt32; split <;> omega

theorem shiftLeft8_or (a b : Nat) (hb : b < 256) : (a <<< 8) ||| b = a * 256 + b := by
  have := Nat.mul_add_lt_is_or (i := 8) (b := b) (by simpa using hb) a
  rw [Nat.shiftLeft_eq, Nat.mul_comm a (2 ^ 8), ← this]

theorem or_shiftLeft (a b i : Nat) (hb : b < 2 ^ i) : b ||| (a <<< i) = b + a * 2 ^ i := by
  have := Nat.mul_add_lt_is_or (i := i) (b := b) hb a
  rw [Nat.shiftLeft_eq, Nat.lor_comm, Nat.mul_comm a (2 ^ i), ← this]; ring

theorem foldl_write_eq (bs : List Nat) (w : Wire σ) :
    bs.foldl Wire.write w = w.writeBytes bs := by
  induction bs generalizing w with
  | nil => simp [Wire.writeBytes]
  | cons b bs ih => simp [List.foldl_cons, ih, Wire.write, Wire.writeBytes]

theorem writeFilename_eq (w : Wire σ) (filename : List Nat) :
    writeFilename w filename = w.writeBytes filename := by
  unfold writeFilename
  split
  · rfl
  · exact foldl_write_eq filename w

theorem take_min_drop (msg : List Nat) (o : Nat) :
    (msg.drop o).take (min 31 (msg.length - o)) = (msg.drop o).take 31 := by
  rcases Nat.le_total 31 (msg.length - o) with h | h
  · rw [Nat.min_eq_left h]
  · rw [Nat.min_eq_right h, List.take_of_length_le (by simp),
      List.take_of_length_le (by simpa using h)]

/-! ## storetoSD: the chunk transactions -/

theorem storeAppendLoop_log (t : Transport σ) (msg : List Nat) (c : Nat)
    (hok : ∀ s bs stop, (t.endTransmission s bs stop).1 = 0) :
    ∀ (fuel k : Nat) (w : Wire σ), 1 ≤ k → msg.length - 31 * k ≤ fuel →
      (storeAppendLoop t msg fuel w (min (31 * k) msg.length)).log
        = w.log ++ (List.range' k ((msg.length + 30) / 31 - k)).map (expectedChunk c msg) := by
  intro fuel
  induction fuel with
  | zero =>
    intro k w _ hf
    have : (msg.length + 30) / 31 - k = 0 := by omega
    simp [storeAppendLoop, this]
  | succ fuel ih =>
    intro k w hk hf
    by_cases hlt : 31 * k < msg.length
    · have hmin : min (31 * k) msg.length = 31 * k := Nat.min_eq_left (Nat.le_of_lt hlt)
      have hnext : 31 * k + min 31 (msg.length - 31 * k) = min (31 * (k + 1)) msg.length := by
        omega
      have hcnt : (msg.length + 30) / 31 - k = ((msg.length + 30) / 31 - (k + 1)) + 1 := by
        omega
      have hk0 : k ≠ 0 := by omega
      rw [storeAppendLoop, hmin]
      simp only [hlt, if_true, endTransmission_fst, hok, ne_eq, not_true_eq_false, if_false]
      rw [hnext, ih (k + 1) _ (by omega) (by omega), hcnt, List.range'_succ]
      simp [endTransmission_log, Wire.writeBytes, Wire.write, Wire.beginTransmission,
        expectedChunk, hk0, take_min_drop]
    · have hmin : min (31 * k) msg.length = msg.length := Nat.min_eq_right (by omega)
      have : (msg.length + 30) / 31 - k = 0 := by omega
      rw [storeAppendLoop, hmin]
      simp [this]

theorem storetoSD_log (t : Transport σ) (w : Wire σ) (filename : List Nat) (c : Nat)
    (msg : List Nat) (hne : msg ≠ [])
    (hok : ∀ s bs stop, (t.endTransmission s bs stop).1 = 0) :
    (storetoSD t w filename c msg).log
      = w.log ++ BusEvent.transmit (70 :: filename) true
          :: (List.range ((msg.length + 30) / 31)).map (expectedChunk c msg) := by
  have hlen : 0 < msg.length := List.length_pos.mpr hne
  have hcnt : (msg.length + 30) / 31 = ((msg.length + 30) / 31 - 1) + 1 := by omega
  have hoff : 0 + min 31 (msg.length - 0) = min (31 * 1) msg.length := by omega
  unfold storetoSD
  simp only [endTransmission_fst, hok, ne_eq, not_true_eq_false, if_false,
    Nat.pos_iff_ne_zero.mp hlen]
  rw [hoff, storeAppendLoop_log t msg c hok _ 1 _ (Nat.le_refl 1) (by omega),
    List.range_eq_range', hcnt, List.range'_succ]
  simp [endTransmission_log, writeFilename_eq, Wire.writeBytes, Wire.write,
    Wire.beginTransmission, expectedChunk]

theorem flatten_chunks (msg : List Nat) (k : Nat) :
    ((List.range k).map (fun i => (msg.drop (31 * i)).take 31)).flatten = msg.take (31 * k) := by
  induction k with
  | zero => simp
  | succ k ih =>
    rw [List.range_succ, List.map_append, List.flatten_append, ih, Nat.mul_succ, List.take_add]
    simp

/-- C1: when every bus transaction succeeds, a non-empty message `M` makes
`storetoSD` emit, after the path transaction `'F' ++ filename`, exactly
`ceil(|M| / 31)` write transactions, each ended with STOP, the `i`-th being the
caller's command byte (for `i = 0`) or `'A'` (for every later one) followed by
bytes `31 i .. 31 i + 31` of `M`; the payloads concatenated give `M`, each has
at most 31 bytes and all but the last exactly 31. -/
theorem storetoSD_chunk_transactions (t : Transport σ) (w : Wire σ) (filename : List Nat)
    (c : Nat) (M : List Nat) (hne : M ≠ [])
    (hok : ∀ s bs stop, (t.endTransmission s bs stop).1 = 0) :
    (storetoSD t w filename c M).log
        = w.log ++ BusEvent.transmit (70 :: filename) true
            :: (List.range ((M.length + 30) / 31)).map (expectedChunk c M)
      ∧ ((List.range ((M.length + 30) / 31)).map
            (fun i => (expectedChunk c M i).payload)).flatten = M
      ∧ (∀ i, i < (M.length + 30) / 31 → (expectedChunk c M i).payload.length ≤ 31)
      ∧ (∀ i, i + 1 < (M.length + 30) / 31 → (expectedChunk c M i).payload.length = 31) := by
  refine ⟨storetoSD_log t w filename c M hne hok, ?_, ?_, ?_⟩
  · have hp : (fun i => (expectedChunk c M i).payload)
        = (fun i => (M.drop (31 * i)).take 31) := by
      funext i
      simp [expectedChunk, BusEvent.payload]
    rw [hp, flatten_chunks]
    apply List.take_of_length_le
    omega
  · intro i _
    simp only [expectedChunk, BusEvent.payload, List.length_take, List.length_drop]
    omega
  · intro i hi
    simp only [expectedChunk, BusEvent.payload, List.length_take, List.length_drop]
    omega

/-- C1, the 70-byte instance: command `'W'` (87) and a 70-byte message give the
path transaction followed by `W` + 31 bytes, `A` + 31 bytes, `A` + 8 bytes. -/
theorem storetoSD_chunk_transactions_witness :
    (storetoSD ⟨fun s _ _ => (0, s), fun s _ _ => ([], s)⟩ ⟨(), [], [], []⟩ [47, 84] 87
        (List.range' 1 70)).log
        = [] ++ BusEvent.transmit (70 :: [47, 84]) true
            :: (List.range (((List.range' 1 70).length + 30) / 31)).map
                (expectedChunk 87 (List.range' 1 70))
      ∧ ((List.range (((List.range' 1 70).length + 30) / 31)).map
            (fun i => (expectedChunk 87 (List.range' 1 70) i).payload)).flatten = List.range' 1 70
      ∧ (∀ i, i < ((List.range' 1 70).length + 30) / 31 →
            (expectedChunk 87 (List.range' 1 70) i).payload.length ≤ 31)
      ∧ (∀ i, i + 1 < ((List.range' 1 70).length + 30) / 31 →
            (expectedChunk 87 (List.range' 1 70) i).payload.length = 31) :=
  storetoSD_chunk_transactions ⟨fun s _ _ => (0, s), fun s _ _ => ([], s)⟩ ⟨(), [], [], []⟩
    [47, 84] 87 (List.range' 1 70) (by decide) (fun _ _ _ => rfl)

/-- The 70-byte write of C1 evaluated: `W` + 31 bytes, `A` + 31 bytes, `A` + 8 bytes. -/
theorem storetoSD_seventy_bytes :
    (storetoSD (σ := Unit) ⟨fun s _ _ => (0, s), fun s _ _ => ([], s)⟩ ⟨(), [], [], []⟩ [47, 84] 87
        (List.range' 1 70)).log
      = [BusEvent.transmit [70, 47, 84] true,
         BusEvent.transmit (87 :: List.range' 1 31) true,
         BusEvent.transmit (65 :: List.range' 32 31) true,
         BusEvent.transmit (65 :: List.range' 63 8) true] := by decide

/-! ## Write then read against the model peripheral -/

theorem modelPeripheral_endTransmission (p : Peripheral) (bytes : List Nat) (stop : Bool) :
    modelPeripheral.endTransmission p bytes stop = (0, p.onTransmit bytes) := rfl

theorem modelPeripheral_requestFrom (p : Peripheral) (n : Nat) (stop : Bool) :
    modelPeripheral.requestFrom p n stop
      = (p.pending.take n, { p with pending := p.pending.drop n }) := rfl

theorem storeAppendLoop_peer (msg : List Nat) :
    ∀ (fuel offset : Nat) (w : Wire Peripheral), msg.length - offset ≤ fuel →
      (storeAppendLoop modelPeripheral msg fuel w offset).peer
        = { w.peer with
            files := Function.update w.peer.files w.peer.selected
              (w.peer.files w.peer.selected ++ msg.drop offset) } := by
  intro fuel
  induction fuel with
  | zero =>
    intro offset w hf
    have : msg.drop offset = [] := List.drop_eq_nil_of_le (by omega)
    simp [storeAppendLoop, this]
  | succ fuel ih =>
    intro offset w hf
    by_cases hlt : offset < msg.length
    · rw [storeAppendLoop]
      simp only [hlt, if_true, endTransmission_fst, modelPeripheral_endTransmission, ne_eq,
        not_true_eq_false, if_false]
      rw [ih _ _ (by omega)]
      have hsplit : msg.drop offset
          = (msg.drop offset).take (min 31 (msg.length - offset))
            ++ msg.drop (offset + min 31 (msg.length - offset)) := by
        rw [← List.drop_drop, List.take_append_drop]
      conv_rhs => rw [hsplit]
      simp [Wire.endTransmission, Wire.writeBytes, Wire.write, Wire.beginTransmission,
        Peripheral.onTransmit, modelPeripheral_endTransmission]
    · have : msg.drop offset = [] := List.drop_eq_nil_of_le (by omega)
      rw [storeAppendLoop]
      simp [hlt, this]

theorem storetoSD_peer_empty (w : Wire Peripheral) (P : List Nat) (c : Nat) :
    (storetoSD modelPeripheral w P c []).peer = { w.peer with selected := P } := by
  simp [storetoSD, Wire.endTransmission, writeFilename_eq, Wire.writeBytes, Wire.write,
    Wire.beginTransmission, Peripheral.onTransmit, modelPeripheral_endTransmission]

theorem storetoSD_peer_write (w : Wire Peripheral) (P msg : List Nat) (hne : msg ≠ []) :
    (storetoSD modelPeripheral w P 87 msg).peer
      = { files := Function.update w.peer.files P msg, selected := P,
          pending := w.peer.pending } := by
  have hlen : msg.length ≠ 0 := by simpa using hne
  unfold storetoSD
  simp only [endTransmission_fst, modelPeripheral_endTransmission, ne_eq, not_true_eq_false,
    if_false, hlen]
  rw [storeAppendLoop_peer msg _ _ _ (by omega)]
  simp [Wire.endTransmission, writeFilename_eq, Wire.writeBytes, Wire.write,
    Wire.beginTransmission, Peripheral.onTransmit, modelPeripheral_endTransmission]

theorem storetoSD_peer_append (w : Wire Peripheral) (P msg : List Nat) (hne : msg ≠ []) :
    (storetoSD modelPeripheral w P 65 msg).peer
      = { files := Function.update w.peer.files P (w.peer.files P ++ msg), selected := P,
          pending := w.peer.pending } := by
  have hlen : msg.length ≠ 0 := by simpa using hne
  unfold storetoSD
  simp only [endTransmission_fst, modelPeripheral_endTransmission, ne_eq, not_true_eq_false,
    if_false, hlen]
  rw [storeAppendLoop_peer msg _ _ _ (by omega)]
  simp [Wire.endTransmission, writeFilename_eq, Wire.writeBytes, Wire.write,
    Wire.beginTransmission, Peripheral.onTransmit, modelPeripheral_endTransmission]

theorem printChunk_all (bs : List Nat) (hb : ∀ b ∈ bs, b < 256) :
    ∀ (w : Wire σ) (out : List Nat), w.rxBuffer = bs →
      printChunk bs.length w out = (true, out ++ bs, { w with rxBuffer := [] }) := by
  induction bs with
  | nil =>
    intro w out h
    cases w
    simp_all [printChunk]
  | cons b bs ih =>
    intro w out h
    have hb0 : b < 256 := hb b (List.mem_cons_self _ _)
    have hbs : ∀ x ∈ bs, x < 256 := fun x hx => hb x (List.mem_cons_of_mem _ hx)
    rw [List.length_cons, printChunk]
    simp only [Wire.available, h, List.length_cons, ne_eq, Nat.add_one_ne_zero,
      not_false_eq_true, if_true]
    have hr : w.read = ((b : Int), { w with rxBuffer := bs }) := by
      simp [Wire.read, h]
    rw [hr, ih hbs _ _ rfl, toUInt8_natCast b hb0]
    simp

theorem readLoop_model :
    ∀ (fuel : Nat) (w : Wire Peripheral) (out : List Nat),
      w.peer.pending.length ≤ fuel → w.peer.pending.length < 2147483648 →
      (∀ b ∈ w.peer.pending, b < 256) →
      (readLoop modelPeripheral fuel w w.peer.pending.length out).content
          = out ++ w.peer.pending
        ∧ (readLoop modelPeripheral fuel w w.peer.pending.length out).outcome
          = ReadOutcome.fileEnd := by
  intro fuel
  induction fuel with
  | zero =>
    intro w out hf _ _
    have : w.peer.pending = [] := List.length_eq_zero.mp (by omega)
    simp [readLoop, this]
  | succ fuel ih =>
    intro w out hf hsmall hb
    by_cases hpos : 0 < w.peer.pending.length
    · have hreq : toUInt32 (min (toInt32 w.peer.pending.length) 32)
          = min w.peer.pending.length 32 := by
        rw [toInt32_small _ hsmall]; unfold toUInt32; omega
      have hlen : (List.take (min w.peer.pending.length 32) w.peer.pending).length
          = min w.peer.pending.length 32 := by
        rw [List.length_take]; omega
      have hmod : min w.peer.pending.length 32 % 256 = min w.peer.pending.length 32 := by
        omega
      have hbt : ∀ b ∈ List.take (min w.peer.pending.length 32) w.peer.pending, b < 256 :=
        fun b hbm => hb b (List.mem_of_mem_take hbm)
      have hpc := printChunk_all (σ := Peripheral) (List.take (min w.peer.pending.length 32) w.peer.pending) hbt
      rw [hlen] at hpc
      have hrem : (w.peer.pending.length + 4294967296 - min w.peer.pending.length 32)
          % 4294967296 = (w.peer.pending.drop (min w.peer.pending.length 32)).length := by
        rw [List.length_drop]; omega
      rw [readLoop]
      simp only [gt_iff_lt, hpos, if_true, hreq, Wire.requestFrom, modelPeripheral_requestFrom,
        List.take_take, Nat.min_self, hlen, hmod]
      have hpos2 : 0 < min w.peer.pending.length 32 := by omega
      simp only [hpos2, if_true]
      rw [hpc _ _ rfl]
      simp only [if_true, hrem]
      have hih := ih
        { peer := { w.peer with pending := w.peer.pending.drop (min w.peer.pending.length 32) },
          txBuffer := w.txBuffer, rxBuffer := [],
          log := w.log ++ [BusEvent.request (min w.peer.pending.length 32) false] }
        (out ++ List.take (min w.peer.pending.length 32) w.peer.pending)
        (by simp only [List.length_drop]; omega)
        (by simp only [List.length_drop]; omega)
        (fun b hbm => hb b (List.mem_of_mem_drop hbm))
      simpa [List.append_assoc] using hih
    · have : w.peer.pending = [] := List.length_eq_zero.mp (by omega)
      simp [readLoop, this]

theorem readSizeMSB_four (w : Wire σ) (b0 b1 b2 b3 : Nat) (h : w.rxBuffer = [b0, b1, b2, b3])
    (h0 : b0 < 256) (h1 : b1 < 256) (h2 : b2 < 256) (h3 : b3 < 256) :
    readSizeMSB 4 w 0
      = (b0 * 16777216 + b1 * 65536 + b2 * 256 + b3, { w with rxBuffer := [] }) := by
  have e0 : ((0 <<< 8) % 4294967296) ||| b0 = b0 := by simp
  have e1 : ((b0 <<< 8) % 4294967296) ||| b1 = b0 * 256 + b1 := by
    rw [Nat.mod_eq_of_lt (by rw [Nat.shiftLeft_eq]; omega), shiftLeft8_or _ _ h1]
  have e2 : (((b0 * 256 + b1) <<< 8) % 4294967296) ||| b2 = (b0 * 256 + b1) * 256 + b2 := by
    rw [Nat.mod_eq_of_lt (by rw [Nat.shiftLeft_eq]; omega), shiftLeft8_or _ _ h2]
  have e3 : ((((b0 * 256 + b1) * 256 + b2) <<< 8) % 4294967296) ||| b3
      = ((b0 * 256 + b1) * 256 + b2) * 256 + b3 := by
    rw [Nat.mod_eq_of_lt (by rw [Nat.shiftLeft_eq]; omega), shiftLeft8_or _ _ h3]
  simp only [readSizeMSB, Wire.read, h, toUInt32_natCast b0 (by omega),
    toUInt32_natCast b1 (by omega), toUInt32_natCast b2 (by omega),
    toUInt32_natCast b3 (by omega), e0, e1, e2, e3]
  refine Prod.ext ?_ rfl
  show ((b0 * 256 + b1) * 256 + b2) * 256 + b3 = _
  ring

theorem ReadFromSD_model (w : Wire Peripheral) (P M : List Nat) (hfile : w.peer.files P = M)
    (hsmall : M.length < 2147483648) (hb : ∀ b ∈ M, b < 256) :
    (ReadFromSD modelPeripheral w P).content = M := by
  have hsz : M.length / 16777216 % 256 * 16777216 + M.length / 65536 % 256 * 65536
      + M.length / 256 % 256 * 256 + M.length % 256 = M.length := by omega
  unfold ReadFromSD
  simp only [endTransmission_fst, modelPeripheral_endTransmission, ne_eq, not_true_eq_false,
    if_false]
  simp only [Wire.requestFrom, Wire.endTransmission, writeFilename_eq, Wire.writeBytes,
    Wire.write, Wire.beginTransmission, modelPeripheral_endTransmission,
    modelPeripheral_requestFrom, Peripheral.onTransmit, List.nil_append, List.singleton_append,
    if_true, hfile, sizeBytesMSB, List.take, List.length_cons, List.length_nil,
    show (70 : Nat) ≠ 87 from by decide, show (83 : Nat) ≠ 70 from by decide,
    show (83 : Nat) ≠ 87 from by decide, show (83 : Nat) ≠ 65 from by decide,
    show (82 : Nat) ≠ 70 from by decide, show (82 : Nat) ≠ 87 from by decide,
    show (82 : Nat) ≠ 65 from by decide, show (82 : Nat) ≠ 83 from by decide, if_false]
  rw [readSizeMSB_four _ _ _ _ _ rfl (Nat.mod_lt _ (by decide)) (Nat.mod_lt _ (by decide))
    (Nat.mod_lt _ (by decide)) (Nat.mod_lt _ (by decide)), hsz]
  by_cases h0 : M.length = 0
  · have : M = [] := List.length_eq_zero.mp h0
    simp [this]
  · simp only [h0, if_false]
    subst hfile
    have h := (readLoop_model (w.peer.files P).length
      { peer := { files := w.peer.files, selected := P, pending := w.peer.files P },
        txBuffer := [], rxBuffer := [],
        log := w.log ++ [BusEvent.transmit (70 :: P) true] ++ [BusEvent.transmit [83] false]
          ++ [BusEvent.request 4 true] ++ [BusEvent.transmit [82] false] }
      [] (Nat.le_refl _) hsmall hb).1
    simpa using h

/-- C2 as stated fails for the empty message: with `/T` holding the one byte `x`
(120), `storetoSD("/T", 'W', "")` followed by `ReadFromSD("/T")` prints `x`, not
the empty message. -/
theorem write_read_empty_message_counterexample :
    (ReadFromSD modelPeripheral
        (storetoSD modelPeripheral
          ⟨⟨fun p => if p = [47, 84] then [120] else [], [], []⟩, [], [], []⟩ [47, 84] 87 [])
        [47, 84]).content = [120]
      ∧ (ReadFromSD modelPeripheral
        (storetoSD modelPeripheral
          ⟨⟨fun p => if p = [47, 84] then [120] else [], [], []⟩, [], [], []⟩ [47, 84] 87 [])
        [47, 84]).content ≠ [] := by
  decide

/-- C2, amended: against the model peripheral with no bus errors, for every path
`P`, every prior state and every message `M` of 1, 31, 32 or 70 bytes,
`storetoSD(P, 'W', M)` followed by `ReadFromSD(P)` prints exactly `M`.  For the
empty message `storetoSD` leaves every file as it was, so the read prints `M`
when `P` was empty or absent before. -/
theorem write_read_roundtrip (w : Wire Peripheral) (P M : List Nat)
    (hb : ∀ b ∈ M, b < 256)
    (hlen : M.length = 0 ∨ M.length = 1 ∨ M.length = 31 ∨ M.length = 32 ∨ M.length = 70)
    (hprior : M = [] → w.peer.files P = []) :
    (ReadFromSD modelPeripheral (storetoSD modelPeripheral w P 87 M) P).content = M
      ∧ (M = [] → (storetoSD modelPeripheral w P 87 M).peer.files = w.peer.files) := by
  have hsmall : M.length < 2147483648 := by omega
  constructor
  · apply ReadFromSD_model _ _ _ _ hsmall hb
    by_cases hM : M = []
    · subst hM
      rw [storetoSD_peer_empty]
      exact hprior rfl
    · rw [storetoSD_peer_write w P M hM]
      simp
  · intro hM
    subst hM
    rw [storetoSD_peer_empty]

/-- C2, amended, at a 32-byte message written over a file that held other content. -/
theorem write_read_roundtrip_witness :
    (ReadFromSD modelPeripheral
        (storetoSD modelPeripheral
          ⟨⟨fun p => if p = [47, 84] then [120] else [], [], []⟩, [], [], []⟩ [47, 84] 87
          (List.range' 1 32))
        [47, 84]).content = List.range' 1 32
      ∧ (List.range' 1 32 = [] →
          (storetoSD modelPeripheral
            ⟨⟨fun p => if p = [47, 84] then [120] else [], [], []⟩, [], [], []⟩ [47, 84] 87
            (List.range' 1 32)).peer.files
            = fun p => if p = [47, 84] then [120] else []) :=
  write_read_roundtrip ⟨⟨fun p => if p = [47, 84] then [120] else [], [], []⟩, [], [], []⟩
    [47, 84] (List.range' 1 32) (by decide) (by decide) (by decide)

/-- C3: against the model peripheral with no bus errors, writing a non-empty
`M1` to `P` with `'W'` and then appending a non-empty `M2` with `'A'` leaves `P`
with content `M1 ++ M2` and length `|M1| + |M2|`, whatever the number of chunks. -/
theorem write_then_append (w : Wire Peripheral) (P M1 M2 : List Nat)
    (h1 : M1 ≠ []) (h2 : M2 ≠ []) :
    (storetoSD modelPeripheral (storetoSD modelPeripheral w P 87 M1) P 65 M2).peer.files P
        = M1 ++ M2
      ∧ ((storetoSD modelPeripheral (storetoSD modelPeripheral w P 87 M1) P 65 M2).peer.files
          P).length = M1.length + M2.length := by
  have h : (storetoSD modelPeripheral (storetoSD modelPeripheral w P 87 M1) P 65 M2).peer.files P
      = M1 ++ M2 := by
    rw [storetoSD_peer_append _ P M2 h2, storetoSD_peer_write w P M1 h1]
    simp
  exact ⟨h, by rw [h, List.length_append]⟩

/-- C3 at a 27-byte write followed by a 40-byte append (two append chunks). -/
theorem write_then_append_witness :
    (storetoSD modelPeripheral
        (storetoSD modelPeripheral ⟨⟨fun _ => [], [], []⟩, [], [], []⟩ [47, 84] 87
          (List.range' 1 27))
        [47, 84] 65 (List.range' 100 40)).peer.files [47, 84]
        = List.range' 1 27 ++ List.range' 100 40
      ∧ ((storetoSD modelPeripheral
        (storetoSD modelPeripheral ⟨⟨fun _ => [], [], []⟩, [], [], []⟩ [47, 84] 87
          (List.range' 1 27))
        [47, 84] 65 (List.range' 100 40)).peer.files [47, 84]).length
        = (List.range' 1 27).length + (List.range' 100 40).length :=
  write_then_append ⟨⟨fun _ => [], [], []⟩, [], [], []⟩ [47, 84] (List.range' 1 27)
    (List.range' 100 40) (by decide) (by decide)

/-! ## parseDirStream on a byte stream -/

theorem streamPeer_requestFrom (s : List Nat) (n : Nat) (stop : Bool) :
    streamPeer.requestFrom s n stop = (s.take n, s.drop n) := rfl

theorem streamPeer_endTransmission (s bs : List Nat) (stop : Bool) :
    streamPeer.endTransmission s bs stop = (0, s) := rfl

theorem readEntryName_complete (name : List Nat) (hname : ∀ c ∈ name, c ≠ 0 ∧ c < 256)
    (rest : List Nat) :
    ∀ (fuel : Nat) (w : Wire (List Nat)) (acc : List Nat),
      w.peer = name ++ 0 :: rest → name.length < fuel →
      readEntryName streamPeer fuel w acc
        = some (true, acc ++ name,
            { peer := rest, txBuffer := w.txBuffer, rxBuffer := [],
              log := w.log ++ List.replicate (name.length + 1) (BusEvent.request 1 false) }) := by
  induction name with
  | nil =>
    intro fuel w acc hp hf
    obtain ⟨fuel, rfl⟩ : ∃ f, fuel = f + 1 := ⟨fuel - 1, by simp at hf; omega⟩
    simp [readEntryName, Wire.requestFrom, streamPeer_requestFrom, hp, Wire.read, toUInt8]
  | cons c name ih =>
    intro fuel w acc hp hf
    obtain ⟨fuel, rfl⟩ : ∃ f, fuel = f + 1 := ⟨fuel - 1, by simp at hf; omega⟩
    have hc := hname c (List.mem_cons_self _ _)
    have hrest : ∀ x ∈ name, x ≠ 0 ∧ x < 256 := fun x hx => hname x (List.mem_cons_of_mem _ hx)
    rw [readEntryName]
    simp only [Wire.requestFrom, streamPeer_requestFrom, hp, List.cons_append, List.take_succ_cons,
      List.take_zero, List.length_singleton, Nat.one_mod, if_true, Wire.read,
      toUInt8_natCast c hc.2, hc.1, if_false, List.drop_succ_cons, List.drop_zero]
    rw [ih hrest fuel _ _ rfl (by simp at hf; omega)]
    simp [List.replicate_succ]

theorem readSizeLSB_four (w : Wire σ) (b0 b1 b2 b3 : Nat) (h : w.rxBuffer = [b0, b1, b2, b3])
    (h0 : b0 < 256) (h1 : b1 < 256) (h2 : b2 < 256) (h3 : b3 < 256) :
    readSizeLSB 4 0 w 0
      = (b0 + b1 * 256 + b2 * 65536 + b3 * 16777216, { w with rxBuffer := [] }) := by
  have e0 : 0 ||| ((b0 <<< (8 * 0)) % 4294967296) = b0 := by
    simp only [Nat.mul_zero, Nat.shiftLeft_zero, Nat.zero_or]
    omega
  have e1 : b0 ||| ((b1 <<< (8 * (0 + 1))) % 4294967296) = b0 + b1 * 256 := by
    rw [Nat.mod_eq_of_lt (by rw [Nat.shiftLeft_eq]; omega)]
    exact or_shiftLeft b1 b0 8 h0
  have e2 : (b0 + b1 * 256) ||| ((b2 <<< (8 * (0 + 1 + 1))) % 4294967296)
      = b0 + b1 * 256 + b2 * 65536 := by
    rw [Nat.mod_eq_of_lt (by rw [Nat.shiftLeft_eq]; omega)]
    exact or_shiftLeft b2 (b0 + b1 * 256) 16 (by omega)
  have e3 : (b0 + b1 * 256 + b2 * 65536) ||| ((b3 <<< (8 * (0 + 1 + 1 + 1))) % 4294967296)
      = b0 + b1 * 256 + b2 * 65536 + b3 * 16777216 := by
    rw [Nat.mod_eq_of_lt (by rw [Nat.shiftLeft_eq]; omega)]
    exact or_shiftLeft b3 (b0 + b1 * 256 + b2 * 65536) 24 (by omega)
  simp only [readSizeLSB, Wire.read, h, toUInt32_natCast b0 (by omega),
    toUInt32_natCast b1 (by omega), toUInt32_natCast b2 (by omega),
    toUInt32_natCast b3 (by omega), e0, e1, e2, e3]

theorem sizeBytesLSB_value (n : Nat) (h : n < 4294967296) :
    n % 256 + n / 256 % 256 * 256 + n / 65536 % 256 * 65536 + n / 16777216 % 256 * 16777216
      = n := by
  omega

theorem discardBytes_four (w : Wire σ) (b0 b1 b2 b3 : Nat) (h : w.rxBuffer = [b0, b1, b2, b3]) :
    discardBytes 4 w = { w with rxBuffer := [] } := by
  simp [discardBytes, Wire.read, h]

theorem parseLoop_entry (e : DirEntry) (he : e.wellFormed) (rest : List Nat) (fuel : Nat)
    (st : Listing (List Nat)) (hp : st.wire.peer = e.encode ++ rest)
    (hf : e.name.length < fuel) :
    parseLoop streamPeer (fuel + 1) st
      = parseLoop streamPeer fuel
          { wire := { peer := rest, txBuffer := st.wire.txBuffer, rxBuffer := [],
                      log := st.wire.log ++ e.requests },
            fileNames := st.fileNames ++ (if e.isFile then [(e.name, e.size)] else []),
            directoryNames := st.directoryNames ++ (if e.isFile then [] else [e.name]) } := by
  obtain ⟨isFile, name, size⟩ := e
  obtain ⟨hname, hsize⟩ := he
  simp only at hname hsize hf
  have hbytes := sizeBytesLSB_value size hsize
  cases isFile
  · simp only [DirEntry.encode, Bool.false_eq_true, if_false, List.cons_append,
      List.append_assoc] at hp
    rw [parseLoop]
    simp only [Wire.requestFrom, streamPeer_requestFrom, hp, List.take_succ_cons, List.take_zero,
      List.length_singleton, Nat.one_mod, if_true, Wire.read, List.drop_succ_cons, List.drop_zero,
      toUInt8_natCast 68 (by decide)]
    rw [readEntryName_complete name hname _ fuel _ [] rfl hf]
    simp only [show (68 : Nat) ≠ 255 from by decide, show (68 : Nat) ≠ 70 from by decide,
      if_false, ne_eq, not_true_eq_false, and_false, not_false_eq_true, Bool.not_true,
      Bool.false_eq_true, sizeBytesLSB, List.cons_append, List.nil_append, List.take_succ_cons,
      List.take_zero, List.length_cons, List.length_nil, List.drop_succ_cons, List.drop_zero,
      List.append_nil, DirEntry.requests, List.replicate_succ, List.append_assoc]
    rw [discardBytes_four _ _ _ _ _ rfl]
    simp [List.replicate_succ]
  · simp only [DirEntry.encode, if_true, List.cons_append, List.append_assoc] at hp
    rw [parseLoop]
    simp only [Wire.requestFrom, streamPeer_requestFrom, hp, List.take_succ_cons, List.take_zero,
      List.length_singleton, Nat.one_mod, if_true, Wire.read, List.drop_succ_cons, List.drop_zero,
      toUInt8_natCast 70 (by decide)]
    rw [readEntryName_complete name hname _ fuel _ [] rfl hf]
    simp only [show (70 : Nat) ≠ 255 from by decide,
      if_false, ne_eq, not_true_eq_false, false_and, not_false_eq_true, Bool.not_true,
      Bool.false_eq_true, sizeBytesLSB, List.cons_append, List.nil_append, List.take_succ_cons,
      List.take_zero, List.length_cons, List.length_nil, List.drop_succ_cons, List.drop_zero,
      List.append_nil, DirEntry.requests, List.replicate_succ, List.append_assoc, if_true]
    rw [readSizeLSB_four _ _ _ _ _ rfl (Nat.mod_lt _ (by decide)) (Nat.mod_lt _ (by decide))
      (Nat.mod_lt _ (by decide)) (Nat.mod_lt _ (by decide)), hbytes]

theorem parseLoop_endMarker (rest : List Nat) (fuel : Nat) (st : Listing (List Nat))
    (hp : st.wire.peer = 255 :: rest) :
    parseLoop streamPeer (fuel + 1) st
      = some { st with wire := { peer := rest, txBuffer := st.wire.txBuffer, rxBuffer := [],
                                 log := st.wire.log ++ [BusEvent.request 1 false] } } := by
  rw [parseLoop]
  simp [Wire.requestFrom, streamPeer_requestFrom, hp, Wire.read, toUInt8]

theorem filesOf_cons (e : DirEntry) (es : List DirEntry) :
    filesOf (e :: es) = (if e.isFile then [(e.name, e.size)] else []) ++ filesOf es := by
  cases h : e.isFile <;> simp [filesOf, List.filter_cons, h]

theorem directoriesOf_cons (e : DirEntry) (es : List DirEntry) :
    directoriesOf (e :: es) = (if e.isFile then [] else [e.name]) ++ directoriesOf es := by
  cases h : e.isFile <;> simp [directoriesOf, List.filter_cons, h]

theorem encode_length (e : DirEntry) : e.encode.length = e.name.length + 6 := by
  simp [DirEntry.encode, sizeBytesLSB]

theorem parseLoop_entries (es : List DirEntry) (hes : ∀ e ∈ es, e.wellFormed)
    (tail : List Nat) (k : Nat) :
    ∀ (fuel : Nat) (st : Listing (List Nat)),
      st.wire.peer = encodeEntries es ++ tail → (encodeEntries es).length + k < fuel →
      ∃ (fuel' : Nat) (st' : Listing (List Nat)), k < fuel'
        ∧ parseLoop streamPeer fuel st = parseLoop streamPeer fuel' st'
        ∧ st'.wire.peer = tail ∧ st'.wire.txBuffer = st.wire.txBuffer
        ∧ st'.wire.log = st.wire.log ++ (es.map DirEntry.requests).flatten
        ∧ st'.fileNames = st.fileNames ++ filesOf es
        ∧ st'.directoryNames = st.directoryNames ++ directoriesOf es := by
  induction es with
  | nil =>
    intro fuel st hp hf
    exact ⟨fuel, st, by simpa [encodeEntries] using hf, rfl, by simpa [encodeEntries] using hp,
      rfl, by simp, by simp [filesOf], by simp [directoriesOf]⟩
  | cons e es ih =>
    intro fuel st hp hf
    obtain ⟨fuel, rfl⟩ : ∃ f, fuel = f + 1 := ⟨fuel - 1, by omega⟩
    have hlen : (encodeEntries (e :: es)).length
        = e.name.length + 6 + (encodeEntries es).length := by
      simp [encodeEntries, encode_length]
    rw [parseLoop_entry e (hes e (List.mem_cons_self _ _)) (encodeEntries es ++ tail) fuel
      st (by simpa [encodeEntries] using hp) (by omega)]
    obtain ⟨fuel', st', hk, hrun, h1, h2, h3, h4, h5⟩ :=
      ih (fun x hx => hes x (List.mem_cons_of_mem _ hx)) fuel
        { wire := { peer := encodeEntries es ++ tail, txBuffer := st.wire.txBuffer,
                    rxBuffer := [], log := st.wire.log ++ e.requests },
          fileNames := st.fileNames ++ (if e.isFile then [(e.name, e.size)] else []),
          directoryNames := st.directoryNames ++ (if e.isFile then [] else [e.name]) }
        rfl (by omega)
    refine ⟨fuel', st', hk, hrun, h1, h2, ?_, ?_, ?_⟩
    · rw [h3]; simp [List.append_assoc]
    · rw [h4]; simp [filesOf_cons, List.append_assoc]
    · rw [h5]; simp [directoriesOf_cons, List.append_assoc]

theorem readEntryName_short (pre : List Nat) (hpre : ∀ c ∈ pre, c ≠ 0 ∧ c < 256) :
    ∀ (fuel : Nat) (w : Wire (List Nat)) (acc : List Nat),
      w.peer = pre → pre.length < fuel →
      readEntryName streamPeer fuel w acc
        = some (false, acc ++ pre,
            { peer := [], txBuffer := w.txBuffer, rxBuffer := [],
              log := w.log ++ List.replicate (pre.length + 1) (BusEvent.request 1 false) }) := by
  induction pre with
  | nil =>
    intro fuel w acc hp hf
    obtain ⟨fuel, rfl⟩ : ∃ f, fuel = f + 1 := ⟨fuel - 1, by simp at hf; omega⟩
    simp [readEntryName, Wire.requestFrom, streamPeer_requestFrom, hp]
  | cons c pre ih =>
    intro fuel w acc hp hf
    obtain ⟨fuel, rfl⟩ : ∃ f, fuel = f + 1 := ⟨fuel - 1, by simp at hf; omega⟩
    have hc := hpre c (List.mem_cons_self _ _)
    have hrest : ∀ x ∈ pre, x ≠ 0 ∧ x < 256 := fun x hx => hpre x (List.mem_cons_of_mem _ hx)
    rw [readEntryName]
    simp only [Wire.requestFrom, streamPeer_requestFrom, hp, List.take_succ_cons,
      List.take_zero, List.length_singleton, Nat.one_mod, if_true, Wire.read,
      toUInt8_natCast c hc.2, hc.1, if_false, List.drop_succ_cons, List.drop_zero]
    rw [ih hrest fuel _ _ rfl (by simp at hf; omega)]
    simp [List.replicate_succ]

theorem parseLoop_short (sr : ShortEntry) (hsr : sr.wellFormed) (fuel : Nat)
    (st : Listing (List Nat)) (hp : st.wire.peer = sr.bytes) (hf : sr.bytes.length < fuel) :
    ∃ w' : Wire (List Nat), parseLoop streamPeer fuel st = some { st with wire := w' }
      ∧ w'.txBuffer = st.wire.txBuffer ∧ w'.log = st.wire.log ++ sr.requests := by
  obtain ⟨fuel, rfl⟩ : ∃ f, fuel = f + 1 := ⟨fuel - 1, by omega⟩
  cases sr with
  | atType =>
    simp only [ShortEntry.bytes] at hp
    refine ⟨{ peer := [], txBuffer := st.wire.txBuffer, rxBuffer := [],
               log := st.wire.log ++ [BusEvent.request 1 false] }, ?_, ?_, ?_⟩
    · rw [parseLoop]
      simp only [Wire.requestFrom, streamPeer_requestFrom, hp, List.take_nil, List.length_nil,
        Nat.zero_mod, show (0 : Nat) ≠ 1 from by decide, if_false, List.drop_nil]
    · rfl
    · rfl
  | atName isFile pre =>
    simp only [ShortEntry.bytes] at hp hf
    simp only [ShortEntry.wellFormed] at hsr
    have hty : toUInt8 (((if isFile then 70 else 68 : Nat) : Nat) : Int)
        = (if isFile then 70 else 68) := by cases isFile <;> rfl
    have h255 : (if isFile then 70 else 68 : Nat) ≠ 255 := by cases isFile <;> decide
    have hFD : ¬ ((if isFile then 70 else 68 : Nat) ≠ 70 ∧ (if isFile then 70 else 68 : Nat) ≠ 68) := by
      cases isFile <;> decide
    refine ⟨{ peer := [], txBuffer := st.wire.txBuffer, rxBuffer := [],
               log := st.wire.log ++ [BusEvent.request 1 false]
                 ++ List.replicate (pre.length + 1) (BusEvent.request 1 false) }, ?_, ?_, ?_⟩
    · rw [parseLoop]
      simp only [Wire.requestFrom, streamPeer_requestFrom, hp, List.take_succ_cons,
        List.take_zero, List.length_singleton, Nat.one_mod, if_true, Wire.read,
        List.drop_succ_cons, List.drop_zero, hty, h255, hFD, if_false]
      rw [readEntryName_short pre hsr fuel _ [] rfl (by simp at hf; omega)]
      simp only [Bool.not_false, if_true]
    · rfl
    · simp [ShortEntry.requests, List.replicate_succ]
  | atSize isFile name sp =>
    simp only [ShortEntry.bytes] at hp hf
    simp only [ShortEntry.wellFormed] at hsr
    obtain ⟨hname, hsp⟩ := hsr
    have hty : toUInt8 (((if isFile then 70 else 68 : Nat) : Nat) : Int)
        = (if isFile then 70 else 68) := by cases isFile <;> rfl
    have h255 : (if isFile then 70 else 68 : Nat) ≠ 255 := by cases isFile <;> decide
    have hFD : ¬ ((if isFile then 70 else 68 : Nat) ≠ 70 ∧ (if isFile then 70 else 68 : Nat) ≠ 68) := by
      cases isFile <;> decide
    have hshort : ¬ (min 4 sp.length % 256 = 4) := by omega
    refine ⟨{ peer := sp.drop 4, txBuffer := st.wire.txBuffer, rxBuffer := sp.take 4,
               log := st.wire.log ++ [BusEvent.request 1 false]
                 ++ List.replicate (name.length + 1) (BusEvent.request 1 false)
                 ++ [BusEvent.request 4 false] }, ?_, ?_, ?_⟩
    · rw [parseLoop]
      simp only [Wire.requestFrom, streamPeer_requestFrom, hp, List.take_succ_cons,
        List.take_zero, List.length_singleton, Nat.one_mod, if_true, Wire.read,
        List.drop_succ_cons, List.drop_zero, hty, h255, hFD, if_false]
      rw [readEntryName_complete name hname sp fuel _ [] rfl (by simp at hf; omega)]
      simp only [Bool.not_true, Bool.false_eq_true, if_false, List.length_take,
        List.take_take, Nat.min_self]
      simp only [hshort, if_false, ite_self]
    · rfl
    · simp [ShortEntry.requests, List.replicate_succ]

/-- C4: when the peer streams a list of entries, each of kind `'F'` or `'D'` with
a NUL-free name and a 32-bit size, encoded as type byte, name, NUL and four size
bytes least significant first, followed by the end marker `0xFF`, then
`parseDirStream` returns with `fileNames` the (name, size) pairs of the files and
`directoryNames` the names of the directories, both in stream order.  The bus
record is the requests of the entries, the one-byte request that reads the end
marker and the closing release; no byte after the end marker is consumed. -/
theorem parseDirStream_complete_stream (es : List DirEntry) (hes : ∀ e ∈ es, e.wellFormed)
    (rest : List Nat) (fuel : Nat) (st : Listing (List Nat))
    (hp : st.wire.peer = encodeEntries es ++ 255 :: rest)
    (hf : (encodeEntries es).length < fuel) :
    ∃ st' : Listing (List Nat), parseDirStream streamPeer fuel st = some st'
      ∧ st'.fileNames = filesOf es ∧ st'.directoryNames = directoriesOf es
      ∧ st'.wire.peer = rest
      ∧ st'.wire.log = st.wire.log ++ (es.map DirEntry.requests).flatten
          ++ [BusEvent.request 1 false, BusEvent.transmit st.wire.txBuffer true] := by
  obtain ⟨fuel', st', hk, hrun, h1, h2, h3, h4, h5⟩ :=
    parseLoop_entries es hes (255 :: rest) 0 fuel
      { st with fileNames := [], directoryNames := [] } hp (by omega)
  obtain ⟨f, rfl⟩ : ∃ f, fuel' = f + 1 := ⟨fuel' - 1, by omega⟩
  rw [parseLoop_endMarker rest f st' h1] at hrun
  refine ⟨_, by rw [parseDirStream, hrun], ?_, ?_, ?_, ?_⟩
  · simpa using h4
  · simpa using h5
  · simp [Wire.endTransmission, streamPeer_endTransmission]
  · simp [Wire.endTransmission, h2, h3]

/-- C4 at two files and one directory: `A` (5 bytes), directory `DIR`, `B`
(300000 bytes), with old listing contents present and one byte following the
end marker. -/
theorem parseDirStream_complete_stream_witness :
    ∃ st' : Listing (List Nat),
      parseDirStream streamPeer 64
          ⟨⟨encodeEntries [⟨true, [65], 5⟩, ⟨false, [68, 73, 82], 0⟩, ⟨true, [66], 300000⟩]
              ++ 255 :: [7], [], [], []⟩, [([1], 1)], [[2]]⟩ = some st'
      ∧ st'.fileNames = filesOf [⟨true, [65], 5⟩, ⟨false, [68, 73, 82], 0⟩, ⟨true, [66], 300000⟩]
      ∧ st'.directoryNames
          = directoriesOf [⟨true, [65], 5⟩, ⟨false, [68, 73, 82], 0⟩, ⟨true, [66], 300000⟩]
      ∧ st'.wire.peer = [7]
      ∧ st'.wire.log = [] ++ (([⟨true, [65], 5⟩, ⟨false, [68, 73, 82], 0⟩,
            ⟨true, [66], 300000⟩] : List DirEntry).map DirEntry.requests).flatten
          ++ [BusEvent.request 1 false, BusEvent.transmit [] true] :=
  parseDirStream_complete_stream
    [⟨true, [65], 5⟩, ⟨false, [68, 73, 82], 0⟩, ⟨true, [66], 300000⟩] (by decide) [7] 64
    ⟨⟨encodeEntries [⟨true, [65], 5⟩, ⟨false, [68, 73, 82], 0⟩, ⟨true, [66], 300000⟩]
        ++ 255 :: [7], [], [], []⟩, [([1], 1)], [[2]]⟩ rfl (by decide)

/-- Evaluation of `parseDirStream` on the stream of files `A` (5 bytes) and `B`
(300000 bytes) and directory `DIR`: the files are `[(A, 5), (B, 300000)]`, the
directories `[DIR]`, and the byte after the end marker stays with the peer. -/
theorem parseDirStream_two_files_one_directory :
    (parseDirStream streamPeer 64
        ⟨⟨[70, 65, 0, 5, 0, 0, 0, 68, 68, 73, 82, 0, 0, 0, 0, 0,
            70, 66, 0, 224, 147, 4, 0, 255, 7], [], [], []⟩, [([1], 1)], [[2]]⟩).map
        (fun st => (st.fileNames, st.directoryNames, st.wire.peer))
      = some ([([65], 5), ([66], 300000)], [[68, 73, 82]], [7]) := by
  decide

/-- C5: when the peer delivers `k` complete well-formed entries and the next
entry is cut short in its type, name or size phase (the request there returns
fewer bytes than asked), `parseDirStream` returns with `fileNames` and
`directoryNames` holding exactly the `k` complete entries in order and nothing of
the incomplete one; the short read is its last request and the bus record ends
with the release. -/
theorem parseDirStream_short_read (es : List DirEntry) (hes : ∀ e ∈ es, e.wellFormed)
    (sr : ShortEntry) (hsr : sr.wellFormed) (fuel : Nat) (st : Listing (List Nat))
    (hp : st.wire.peer = encodeEntries es ++ sr.bytes)
    (hf : (encodeEntries es).length + sr.bytes.length < fuel) :
    ∃ st' : Listing (List Nat), parseDirStream streamPeer fuel st = some st'
      ∧ st'.fileNames = filesOf es ∧ st'.directoryNames = directoriesOf es
      ∧ st'.wire.log = st.wire.log ++ (es.map DirEntry.requests).flatten ++ sr.requests
          ++ [BusEvent.transmit st.wire.txBuffer true] := by
  obtain ⟨fuel', st', hk, hrun, h1, h2, h3, h4, h5⟩ :=
    parseLoop_entries es hes sr.bytes sr.bytes.length fuel
      { st with fileNames := [], directoryNames := [] } hp hf
  obtain ⟨w', hw, htx, hlog⟩ := parseLoop_short sr hsr fuel' st' h1 hk
  rw [hw] at hrun
  refine ⟨_, by rw [parseDirStream, hrun], ?_, ?_, ?_⟩
  · simpa using h4
  · simpa using h5
  · simp [Wire.endTransmission, htx, hlog, h2, h3]

/-- C5 at one complete file followed by a file entry cut inside its size field,
with old listing contents present. -/
theorem parseDirStream_short_read_witness :
    ∃ st' : Listing (List Nat),
      parseDirStream streamPeer 64
          ⟨⟨encodeEntries [⟨true, [65], 5⟩] ++ (ShortEntry.atSize true [66] [1, 2]).bytes,
              [], [], []⟩, [([1], 1)], [[2]]⟩ = some st'
      ∧ st'.fileNames = filesOf [⟨true, [65], 5⟩]
      ∧ st'.directoryNames = directoriesOf [⟨true, [65], 5⟩]
      ∧ st'.wire.log = [] ++ (([⟨true, [65], 5⟩] : List DirEntry).map DirEntry.requests).flatten
          ++ (ShortEntry.atSize true [66] [1, 2]).requests ++ [BusEvent.transmit [] true] :=
  parseDirStream_short_read [⟨true, [65], 5⟩] (by decide) (ShortEntry.atSize true [66] [1, 2])
    (by decide) 64
    ⟨⟨encodeEntries [⟨true, [65], 5⟩] ++ (ShortEntry.atSize true [66] [1, 2]).bytes,
        [], [], []⟩, [([1], 1)], [[2]]⟩ rfl (by decide)

/-! ## GetFileSize -/

theorem GetFileSize_success (t : Transport σ) (w : Wire σ) (filename : List Nat)
    (b0 b1 b2 b3 : Nat) (h0 : b0 < 256) (h1 : b1 < 256) (h2 : b2 < 256) (h3 : b3 < 256)
    (hpath : t.pathError w.peer filename = 0)
    (hcmd : t.commandError w.peer filename 83 = 0)
    (hresp : t.response w.peer filename 83 4 = [b0, b1, b2, b3]) :
    (GetFileSize t w filename).1
      = toInt32 (b0 * 16777216 + b1 * 65536 + b2 * 256 + b3) := by
  simp only [Transport.pathError, Transport.commandError, Transport.response] at hpath hcmd hresp
  unfold GetFileSize
  simp only [endTransmission_fst, Wire.beginTransmission, Wire.write, Wire.writeBytes,
    List.nil_append, List.singleton_append, hpath, ne_eq, not_true_eq_false, if_false,
    Wire.endTransmission, hcmd, Wire.requestFrom, hresp, List.length_cons, List.length_nil]
  simp only [show (0 + 1 + 1 + 1 + 1) % 256 = 4 from rfl, if_true]
  rw [readSizeMSB_four _ b0 b1 b2 b3 rfl h0 h1 h2 h3]

theorem GetFileSize_error (t : Transport σ) (w : Wire σ) (filename : List Nat)
    (h : t.pathError w.peer filename ≠ 0 ∨ t.commandError w.peer filename 83 ≠ 0
      ∨ (t.response w.peer filename 83 4).length ≠ 4) :
    (GetFileSize t w filename).1 = -1 := by
  simp only [Transport.pathError, Transport.commandError, Transport.response] at h
  unfold GetFileSize
  simp only [endTransmission_fst, Wire.beginTransmission, Wire.write, Wire.writeBytes,
    List.nil_append, List.singleton_append, Wire.endTransmission, Wire.requestFrom]
  by_cases hp : (t.endTransmission w.peer (70 :: filename) true).1 = 0
  · by_cases hc : (t.endTransmission (t.endTransmission w.peer (70 :: filename) true).2 [83]
        false).1 = 0
    · have hl : (List.take 4 (t.requestFrom (t.endTransmission
          (t.endTransmission w.peer (70 :: filename) true).2 [83] false).2 4 true).1).length
          ≠ 4 := by
        rcases h with h | h | h
        · exact absurd hp h
        · exact absurd hc h
        · exact h
      have hle : (List.take 4 (t.requestFrom (t.endTransmission
          (t.endTransmission w.peer (70 :: filename) true).2 [83] false).2 4 true).1).length
          ≤ 4 := by
        rw [List.length_take]; omega
      have hmod : ¬ ((List.take 4 (t.requestFrom (t.endTransmission
          (t.endTransmission w.peer (70 :: filename) true).2 [83] false).2 4 true).1).length
          % 256 = 4) := by omega
      simp only [hp, hc, ne_eq, not_true_eq_false, if_false, hmod]
    · simp only [hp, hc, ne_eq, not_true_eq_false, not_false_eq_true, if_false, if_true]
  · simp only [hp, ne_eq, not_false_eq_true, if_true]

/-- C6: when the path transaction and the `'S'` command transaction succeed and
exactly the four bytes `b0, b1, b2, b3` arrive, `GetFileSize` returns the value
assembled most significant byte first, `b0 * 2^24 + b1 * 2^16 + b2 * 2^8 + b3`,
as a 32-bit quantity converted to `int`. -/
theorem GetFileSize_msb_first (t : Transport σ) (w : Wire σ) (filename : List Nat)
    (b0 b1 b2 b3 : Nat) (h0 : b0 < 256) (h1 : b1 < 256) (h2 : b2 < 256) (h3 : b3 < 256)
    (hpath : t.pathError w.peer filename = 0)
    (hcmd : t.commandError w.peer filename 83 = 0)
    (hresp : t.response w.peer filename 83 4 = [b0, b1, b2, b3]) :
    (GetFileSize t w filename).1
      = toInt32 (b0 * 2 ^ 24 + b1 * 2 ^ 16 + b2 * 2 ^ 8 + b3) :=
  GetFileSize_success t w filename b0 b1 b2 b3 h0 h1 h2 h3 hpath hcmd hresp

/-- C6 at the response `01 02 03 04`: the size is `0x01020304 = 16909060`. -/
theorem GetFileSize_msb_first_witness :
    (GetFileSize streamPeer ⟨[1, 2, 3, 4], [], [], []⟩ [47, 84]).1
      = toInt32 (1 * 2 ^ 24 + 2 * 2 ^ 16 + 3 * 2 ^ 8 + 4) :=
  GetFileSize_msb_first streamPeer ⟨[1, 2, 3, 4], [], [], []⟩ [47, 84] 1 2 3 4
    (by decide) (by decide) (by decide) (by decide) rfl rfl rfl

/-- C7 as stated fails: with both transactions succeeding and the four size
bytes `FF FF FF FF` received, no error occurred and `GetFileSize` returns -1. -/
theorem GetFileSize_minus_one_without_error :
    (GetFileSize streamPeer ⟨[255, 255, 255, 255], [], [], []⟩ [47, 84]).1 = -1
      ∧ streamPeer.pathError [255, 255, 255, 255] [47, 84] = 0
      ∧ streamPeer.commandError [255, 255, 255, 255] [47, 84] 83 = 0
      ∧ (streamPeer.response [255, 255, 255, 255] [47, 84] 83 4).length = 4 := by
  decide

/-- C7, amended: `GetFileSize` returns -1 whenever the path transaction failed,
the `'S'` command transaction failed or fewer than 4 size bytes were received.
In every other case it returns the 32-bit size converted to `int`, which is -1
exactly when the four size bytes are all `0xFF`. -/
theorem GetFileSize_minus_one (t : Transport σ) (w : Wire σ) (filename : List Nat)
    (hbytes : ∀ b ∈ t.response w.peer filename 83 4, b < 256) :
    ((t.pathError w.peer filename ≠ 0 ∨ t.commandError w.peer filename 83 ≠ 0
        ∨ (t.response w.peer filename 83 4).length ≠ 4) →
      (GetFileSize t w filename).1 = -1)
    ∧ ∀ b0 b1 b2 b3 : Nat, t.pathError w.peer filename = 0 →
        t.commandError w.peer filename 83 = 0 →
        t.response w.peer filename 83 4 = [b0, b1, b2, b3] →
        (GetFileSize t w filename).1 = toInt32 (b0 * 16777216 + b1 * 65536 + b2 * 256 + b3)
        ∧ ((GetFileSize t w filename).1 = -1 ↔ b0 = 255 ∧ b1 = 255 ∧ b2 = 255 ∧ b3 = 255) := by
  refine ⟨GetFileSize_error t w filename, ?_⟩
  intro b0 b1 b2 b3 hpath hcmd hresp
  have h0 : b0 < 256 := hbytes b0 (by rw [hresp]; simp)
  have h1 : b1 < 256 := hbytes b1 (by rw [hresp]; simp)
  have h2 : b2 < 256 := hbytes b2 (by rw [hresp]; simp)
  have h3 : b3 < 256 := hbytes b3 (by rw [hresp]; simp)
  have hv := GetFileSize_success t w filename b0 b1 b2 b3 h0 h1 h2 h3 hpath hcmd hresp
  refine ⟨hv, ?_⟩
  rw [hv]
  unfold toInt32
  split <;> omega

/-- C7, amended, at the response `00 00 01 00` (size 256). -/
theorem GetFileSize_minus_one_witness :
    ((streamPeer.pathError [0, 0, 1, 0] [47, 84] ≠ 0
        ∨ streamPeer.commandError [0, 0, 1, 0] [47, 84] 83 ≠ 0
        ∨ (streamPeer.response [0, 0, 1, 0] [47, 84] 83 4).length ≠ 4) →
      (GetFileSize streamPeer ⟨[0, 0, 1, 0], [], [], []⟩ [47, 84]).1 = -1)
    ∧ ∀ b0 b1 b2 b3 : Nat, streamPeer.pathError [0, 0, 1, 0] [47, 84] = 0 →
        streamPeer.commandError [0, 0, 1, 0] [47, 84] 83 = 0 →
        streamPeer.response [0, 0, 1, 0] [47, 84] 83 4 = [b0, b1, b2, b3] →
        (GetFileSize streamPeer ⟨[0, 0, 1, 0], [], [], []⟩ [47, 84]).1
          = toInt32 (b0 * 16777216 + b1 * 65536 + b2 * 256 + b3)
        ∧ ((GetFileSize streamPeer ⟨[0, 0, 1, 0], [], [], []⟩ [47, 84]).1 = -1
            ↔ b0 = 255 ∧ b1 = 255 ∧ b2 = 255 ∧ b3 = 255) :=
  GetFileSize_minus_one streamPeer ⟨[0, 0, 1, 0], [], [], []⟩ [47, 84] (by decide)

/-! ## checkExists, mkdir, removeFile, rmdir -/

theorem take_one_cases (l : List Nat) :
    l.take 1 = [] ∨ ∃ b, l.take 1 = [b] := by
  cases l with
  | nil => exact Or.inl rfl
  | cons b l => exact Or.inr ⟨b, by simp⟩

theorem checkExists_result (t : Transport σ) (w : Wire σ) (path : List Nat) (isDirectory : Bool)
    (hbytes : ∀ b ∈ t.response w.peer path (if isDirectory then 75 else 69) 1, b < 256) :
    ((checkExists t w path isDirectory).1 = true ↔
      t.pathError w.peer path = 0
        ∧ t.commandError w.peer path (if isDirectory then 75 else 69) = 0
        ∧ t.response w.peer path (if isDirectory then 75 else 69) 1 = [1]) := by
  simp only [Transport.pathError, Transport.commandError, Transport.response] at hbytes ⊢
  unfold checkExists sendFilename
  simp only [endTransmission_fst, Wire.beginTransmission, Wire.write, Wire.writeBytes,
    List.nil_append, List.singleton_append, Wire.endTransmission, Wire.requestFrom]
  by_cases hp : (t.endTransmission w.peer (70 :: path) true).1 = 0
  · by_cases hc : (t.endTransmission (t.endTransmission w.peer (70 :: path) true).2
        [if isDirectory then 75 else 69] false).1 = 0
    · rcases take_one_cases (t.requestFrom (t.endTransmission
          (t.endTransmission w.peer (70 :: path) true).2
          [if isDirectory then 75 else 69] false).2 1 true).1 with h | ⟨b, h⟩
      · simp [hp, hc, h]
      · have hb : b < 256 := hbytes b (by rw [h]; simp)
        simp only [hp, hc, h, ne_eq, not_true_eq_false, if_false, Bool.not_true,
          Bool.false_eq_true, List.length_singleton, Nat.one_mod, if_true, Wire.read,
          toUInt8_natCast b hb, true_and, List.cons.injEq, and_true]
        by_cases h1 : b = 1 <;> simp [h1]
    · simp [hp, hc]
  · simp [hp]

theorem checkExists_log (t : Transport σ) (w : Wire σ) (path : List Nat) (isDirectory : Bool)
    (hpath : t.pathError w.peer path = 0)
    (hcmd : t.commandError w.peer path (if isDirectory then 75 else 69) = 0) :
    (checkExists t w path isDirectory).2.log
      = w.log ++ [BusEvent.transmit (70 :: path) true,
          BusEvent.transmit [if isDirectory then 75 else 69] false,
          BusEvent.request 1 true, BusEvent.transmit [] true] := by
  simp only [Transport.pathError, Transport.commandError] at hpath hcmd
  unfold checkExists sendFilename
  simp only [endTransmission_fst, Wire.beginTransmission, Wire.write, Wire.writeBytes,
    List.nil_append, List.singleton_append, Wire.endTransmission, Wire.requestFrom, hpath, hcmd,
    ne_eq, not_true_eq_false, if_false, Bool.not_true, Bool.false_eq_true]
  rcases take_one_cases (t.requestFrom (t.endTransmission
      (t.endTransmission w.peer (70 :: path) true).2
      [if isDirectory then 75 else 69] false).2 1 true).1 with h | ⟨b, h⟩
  · simp [h]
  · simp only [h, List.length_singleton, Nat.one_mod, if_true, Wire.read]
    split <;> simp

/-- C8: `checkExists` sends the path transaction, then the single command byte
`'K'` (75) when `isDirectory` is true and `'E'` (69) otherwise with the bus held,
then requests one byte with release (and closes with an empty released
transaction).  It returns true if and only if the path transaction succeeded,
the command transaction succeeded and exactly the one byte 1 was received; any
other byte, a short read or a bus error gives false. -/
theorem checkExists_protocol (t : Transport σ) (w : Wire σ) (path : List Nat)
    (isDirectory : Bool)
    (hbytes : ∀ b ∈ t.response w.peer path (if isDirectory then 75 else 69) 1, b < 256) :
    ((checkExists t w path isDirectory).1 = true ↔
      t.pathError w.peer path = 0
        ∧ t.commandError w.peer path (if isDirectory then 75 else 69) = 0
        ∧ t.response w.peer path (if isDirectory then 75 else 69) 1 = [1])
    ∧ (t.pathError w.peer path = 0 →
        t.commandError w.peer path (if isDirectory then 75 else 69) = 0 →
        (checkExists t w path isDirectory).2.log
          = w.log ++ [BusEvent.transmit (70 :: path) true,
              BusEvent.transmit [if isDirectory then 75 else 69] false,
              BusEvent.request 1 true, BusEvent.transmit [] true]) :=
  ⟨checkExists_result t w path isDirectory hbytes, checkExists_log t w path isDirectory⟩

/-- C8 at a directory query answered with the byte 1. -/
theorem checkExists_protocol_witness :
    ((checkExists streamPeer ⟨[1], [], [], []⟩ [47, 68] true).1 = true ↔
      streamPeer.pathError [1] [47, 68] = 0
        ∧ streamPeer.commandError [1] [47, 68] (if true then 75 else 69) = 0
        ∧ streamPeer.response [1] [47, 68] (if true then 75 else 69) 1 = [1])
    ∧ (streamPeer.pathError [1] [47, 68] = 0 →
        streamPeer.commandError [1] [47, 68] (if true then 75 else 69) = 0 →
        (checkExists streamPeer ⟨[1], [], [], []⟩ [47, 68] true).2.log
          = [] ++ [BusEvent.transmit (70 :: [47, 68]) true,
              BusEvent.transmit [if true then 75 else 69] false,
              BusEvent.request 1 true, BusEvent.transmit [] true]) :=
  checkExists_protocol streamPeer ⟨[1], [], [], []⟩ [47, 68] true (by decide)

theorem mkdir_result (t : Transport σ) (w : Wire σ) (dirname : List Nat) :
    ((mkdir t w dirname).1 = true ↔
      t.pathError w.peer dirname = 0 ∧ t.commandError w.peer dirname 77 = 0
        ∧ (t.response w.peer dirname 77 1).length = 1) := by
  simp only [Transport.pathError, Transport.commandError, Transport.response]
  unfold mkdir
  simp only [endTransmission_fst, Wire.beginTransmission, Wire.write, Wire.writeBytes,
    List.nil_append, List.singleton_append, Wire.endTransmission, Wire.requestFrom]
  by_cases hp : (t.endTransmission w.peer (70 :: dirname) true).1 = 0
  · by_cases hc : (t.endTransmission (t.endTransmission w.peer (70 :: dirname) true).2
        [77] false).1 = 0
    · rcases take_one_cases (t.requestFrom (t.endTransmission
          (t.endTransmission w.peer (70 :: dirname) true).2 [77] false).2 1 true).1
        with h | ⟨b, h⟩
      · simp [hp, hc, h]
      · simp [hp, hc, h]
    · simp [hp, hc]
  · simp [hp]

theorem removeFile_result (t : Transport σ) (w : Wire σ) (filename : List Nat) :
    ((removeFile t w filename).1 = true ↔
      t.pathError w.peer filename = 0 ∧ t.commandError w.peer filename 88 = 0
        ∧ t.response w.peer filename 88 1 = [1]) := by
  simp only [Transport.pathError, Transport.commandError, Transport.response]
  unfold removeFile
  simp only [endTransmission_fst, Wire.beginTransmission, Wire.write, Wire.writeBytes,
    List.nil_append, List.singleton_append, Wire.endTransmission, Wire.requestFrom]
  by_cases hp : (t.endTransmission w.peer (70 :: filename) true).1 = 0
  · by_cases hc : (t.endTransmission (t.endTransmission w.peer (70 :: filename) true).2
        [88] false).1 = 0
    · rcases take_one_cases (t.requestFrom (t.endTransmission
          (t.endTransmission w.peer (70 :: filename) true).2 [88] false).2 1 true).1
        with h | ⟨b, h⟩
      · simp [hp, hc, h]
      · by_cases h1 : b = 1 <;> simp [hp, hc, h, Wire.read, h1]
    · simp [hp, hc]
  · simp [hp]

theorem rmdir_result (t : Transport σ) (w : Wire σ) (dirname : List Nat) :
    ((rmdir t w dirname).1 = true ↔
      t.pathError w.peer dirname = 0 ∧ t.commandError w.peer dirname 68 = 0
        ∧ t.response w.peer dirname 68 1 = [1]) := by
  simp only [Transport.pathError, Transport.commandError, Transport.response]
  unfold rmdir
  simp only [endTransmission_fst, Wire.beginTransmission, Wire.write, Wire.writeBytes,
    List.nil_append, List.singleton_append, Wire.endTransmission, Wire.requestFrom]
  by_cases hp : (t.endTransmission w.peer (70 :: dirname) true).1 = 0
  · by_cases hc : (t.endTransmission (t.endTransmission w.peer (70 :: dirname) true).2
        [68] false).1 = 0
    · rcases take_one_cases (t.requestFrom (t.endTransmission
          (t.endTransmission w.peer (70 :: dirname) true).2 [68] false).2 1 true).1
        with h | ⟨b, h⟩
      · simp [hp, hc, h]
      · by_cases h1 : b = 1 <;> simp [hp, hc, h, Wire.read, h1]
    · simp [hp, hc]
  · simp [hp]

theorem response_length_le (t : Transport σ) (s : σ) (path : List Nat) (cmd n : Nat) :
    (t.response s path cmd n).length ≤ n := by
  simp only [Transport.response, List.length_take]
  omega

/-- C9: `mkdir` returns true for every value of the status byte whenever the
path transaction and the `'M'` (77) command transaction succeed and one status
byte is received, and it returns false exactly when the path transaction fails,
the command transaction fails or no status byte is received. -/
theorem mkdir_true_for_every_status (t : Transport σ) (w : Wire σ) (dirname : List Nat) :
    ((mkdir t w dirname).1 = true ↔
      t.pathError w.peer dirname = 0 ∧ t.commandError w.peer dirname 77 = 0
        ∧ ∃ status, t.response w.peer dirname 77 1 = [status])
    ∧ ((mkdir t w dirname).1 = false ↔
      t.pathError w.peer dirname ≠ 0 ∨ t.commandError w.peer dirname 77 ≠ 0
        ∨ t.response w.peer dirname 77 1 = []) := by
  have h := mkdir_result t w dirname
  have hle := response_length_le t w.peer dirname 77 1
  constructor
  · rw [h, List.length_eq_one]
  · rw [← Bool.not_eq_true, h, ← List.length_eq_zero]
    constructor
    · intro hn
      by_cases hp : t.pathError w.peer dirname = 0
      · by_cases hc : t.commandError w.peer dirname 77 = 0
        · right; right
          have : (t.response w.peer dirname 77 1).length ≠ 1 := fun hl => hn ⟨hp, hc, hl⟩
          omega
        · exact Or.inr (Or.inl hc)
      · exact Or.inl hp
    · rintro (hp | hc | hl) ⟨hp', hc', hl'⟩
      · exact hp hp'
      · exact hc hc'
      · omega

/-- C10: `removeFile` (command `'X'`, 88) and `rmdir` (command `'D'`, 68) each
return true if and only if the path transaction succeeded, the command
transaction succeeded and exactly the one status byte 1 was received; another
status byte, a short read or a bus error gives false. -/
theorem removeFile_rmdir_true_iff (t : Transport σ) (w : Wire σ) (name : List Nat) :
    ((removeFile t w name).1 = true ↔
      t.pathError w.peer name = 0 ∧ t.commandError w.peer name 88 = 0
        ∧ t.response w.peer name 88 1 = [1])
    ∧ ((rmdir t w name).1 = true ↔
      t.pathError w.peer name = 0 ∧ t.commandError w.peer name 68 = 0
        ∧ t.response w.peer name 68 1 = [1]) :=
  ⟨removeFile_result t w name, rmdir_result t w name⟩

/-- The peer reports failure (status byte 0): `mkdir` still returns true while
`removeFile` and `rmdir` return false. -/
theorem status_zero_mkdir_removeFile_rmdir :
    (mkdir streamPeer ⟨[0], [], [], []⟩ [47, 68]).1 = true
      ∧ (removeFile streamPeer ⟨[0], [], [], []⟩ [47, 68]).1 = false
      ∧ (rmdir streamPeer ⟨[0], [], [], []⟩ [47, 68]).1 = false := by
  decide

/-! ## setSDCardTime and getvolsize -/

/-- C13: for every year and all byte values month, day, hour, minute, second,
`setSDCardTime` adds to the bus record exactly one transaction, ended with
release, whose seven bytes are `'C'` (67), `year mod 100`, month, day, hour,
minute, second; the year byte is below 100 and nothing is read (no request is
made and the receive buffer is untouched). -/
theorem setSDCardTime_one_transaction (t : Transport σ) (w : Wire σ)
    (year month day hour minute second : Nat) :
    (setSDCardTime t w year month day hour minute second).log
        = w.log ++ [BusEvent.transmit [67, year % 100, month, day, hour, minute, second] true]
      ∧ year % 100 < 100
      ∧ [67, year % 100, month, day, hour, minute, second].length = 7
      ∧ (setSDCardTime t w year month day hour minute second).rxBuffer = w.rxBuffer := by
  have hy : year % 100 < 100 := Nat.mod_lt _ (by decide)
  refine ⟨?_, hy, rfl, rfl⟩
  unfold setSDCardTime
  rw [toUInt8_natCast (year % 100) (by omega)]
  simp [Wire.endTransmission, Wire.write, Wire.beginTransmission]

/-- Evaluation of `setSDCardTime(2024, 7, 26, 10, 30, 0)`: the one transaction
`C 24 7 26 10 30 0`. -/
theorem setSDCardTime_demo :
    (setSDCardTime streamPeer ⟨[], [], [], []⟩ 2024 7 26 10 30 0).log
      = [BusEvent.transmit [67, 24, 7, 26, 10, 30, 0] true] := by
  decide

theorem readSizeLSB_leading (w : Wire σ) (b0 b1 b2 b3 : Nat) (rest : List Nat)
    (h : w.rxBuffer = b0 :: b1 :: b2 :: b3 :: rest)
    (h0 : b0 < 256) (h1 : b1 < 256) (h2 : b2 < 256) (h3 : b3 < 256) :
    readSizeLSB 4 0 w 0
      = (b0 + b1 * 256 + b2 * 65536 + b3 * 16777216, { w with rxBuffer := rest }) := by
  have e0 : 0 ||| ((b0 <<< (8 * 0)) % 4294967296) = b0 := by
    simp only [Nat.mul_zero, Nat.shiftLeft_zero, Nat.zero_or]
    omega
  have e1 : b0 ||| ((b1 <<< (8 * (0 + 1))) % 4294967296) = b0 + b1 * 256 := by
    rw [Nat.mod_eq_of_lt (by rw [Nat.shiftLeft_eq]; omega)]
    exact or_shiftLeft b1 b0 8 h0
  have e2 : (b0 + b1 * 256) ||| ((b2 <<< (8 * (0 + 1 + 1))) % 4294967296)
      = b0 + b1 * 256 + b2 * 65536 := by
    rw [Nat.mod_eq_of_lt (by rw [Nat.shiftLeft_eq]; omega)]
    exact or_shiftLeft b2 (b0 + b1 * 256) 16 (by omega)
  have e3 : (b0 + b1 * 256 + b2 * 65536) ||| ((b3 <<< (8 * (0 + 1 + 1 + 1))) % 4294967296)
      = b0 + b1 * 256 + b2 * 65536 + b3 * 16777216 := by
    rw [Nat.mod_eq_of_lt (by rw [Nat.shiftLeft_eq]; omega)]
    exact or_shiftLeft b3 (b0 + b1 * 256 + b2 * 65536) 24 (by omega)
  simp only [readSizeLSB, Wire.read, h, toUInt32_natCast b0 (by omega),
    toUInt32_natCast b1 (by omega), toUInt32_natCast b2 (by omega),
    toUInt32_natCast b3 (by omega), e0, e1, e2, e3]

/-- C11: for every response `r` of byte values to the `'V'` command (the
command transaction having succeeded), `getvolsize` classifies a 10-byte `r` by
`r[0]`: `0x01` is success with FAT type `r[1]`, blocks per cluster
`r[2] + r[3] * 2^8 + r[4] * 2^16 + r[5] * 2^24` and cluster count
`r[6] + r[7] * 2^8 + r[8] * 2^16 + r[9] * 2^24`; `0xFF` is the peer-reported
failure, after which all remaining 9 bytes are consumed; every other status is
the unexpected-status error.  A response of fewer than 10 bytes is the
short-read error and decodes nothing. -/
theorem getvolsize_classification (t : Transport σ) (w : Wire σ) (r : List Nat)
    (hbytes : ∀ b ∈ r, b < 256)
    (hcmd : (t.endTransmission w.peer [86] false).1 = 0)
    (hresp : ((t.requestFrom (t.endTransmission w.peer [86] false).2 10 true).1).take 10 = r) :
    (∀ r1 r2 r3 r4 r5 r6 r7 r8 r9 : Nat, r = [1, r1, r2, r3, r4, r5, r6, r7, r8, r9] →
      (getvolsize t w).1
        = VolumeOutcome.success r1 (r2 + r3 * 2 ^ 8 + r4 * 2 ^ 16 + r5 * 2 ^ 24)
            (r6 + r7 * 2 ^ 8 + r8 * 2 ^ 16 + r9 * 2 ^ 24)
            (if r2 + r3 * 2 ^ 8 + r4 * 2 ^ 16 + r5 * 2 ^ 24 > 0
                ∧ r6 + r7 * 2 ^ 8 + r8 * 2 ^ 16 + r9 * 2 ^ 24 > 0 then
              some (totalBytes (r6 + r7 * 2 ^ 8 + r8 * 2 ^ 16 + r9 * 2 ^ 24)
                (r2 + r3 * 2 ^ 8 + r4 * 2 ^ 16 + r5 * 2 ^ 24))
             else none))
    ∧ (∀ r1 r2 r3 r4 r5 r6 r7 r8 r9 : Nat, r = [255, r1, r2, r3, r4, r5, r6, r7, r8, r9] →
      (getvolsize t w).1 = VolumeOutcome.peerFailure ∧ (getvolsize t w).2.rxBuffer = [])
    ∧ (∀ r0 r1 r2 r3 r4 r5 r6 r7 r8 r9 : Nat, r = [r0, r1, r2, r3, r4, r5, r6, r7, r8, r9] →
      r0 ≠ 1 → r0 ≠ 255 → (getvolsize t w).1 = VolumeOutcome.unexpectedStatus r0)
    ∧ (r.length < 10 → (getvolsize t w).1 = VolumeOutcome.shortRead r.length) := by
  refine ⟨?_, ?_, ?_, ?_⟩
  · intro r1 r2 r3 r4 r5 r6 r7 r8 r9 hr
    subst hr
    have hb : ∀ b ∈ [1, r1, r2, r3, r4, r5, r6, r7, r8, r9], b < 256 := hbytes
    simp only [List.mem_cons, List.mem_singleton, forall_eq_or_imp, forall_eq] at hb
    obtain ⟨-, h1, h2, h3, h4, h5, h6, h7, h8, h9, -⟩ := hb
    unfold getvolsize
    simp only [endTransmission_fst, Wire.beginTransmission, Wire.write, List.nil_append,
      Wire.endTransmission, hcmd, ne_eq, not_true_eq_false, if_false, Wire.requestFrom, hresp,
      List.length_cons, List.length_nil, Wire.read, toUInt8_natCast 1 (by decide),
      toUInt8_natCast r1 h1]
    simp only [show (0 + 1 + 1 + 1 + 1 + 1 + 1 + 1 + 1 + 1 + 1) % 256 = 10 from rfl, if_true]
    rw [readSizeLSB_leading _ r2 r3 r4 r5 [r6, r7, r8, r9] rfl h2 h3 h4 h5]
    simp only
    rw [readSizeLSB_leading _ r6 r7 r8 r9 [] rfl h6 h7 h8 h9]
    norm_num
  · intro r1 r2 r3 r4 r5 r6 r7 r8 r9 hr
    subst hr
    unfold getvolsize
    simp only [endTransmission_fst, Wire.beginTransmission, Wire.write, List.nil_append,
      Wire.endTransmission, hcmd, ne_eq, not_true_eq_false, if_false, Wire.requestFrom, hresp,
      List.length_cons, List.length_nil, Wire.read, toUInt8_natCast 255 (by decide)]
    simp [consumeAvailable, Wire.available, Wire.read]
  · intro r0 r1 r2 r3 r4 r5 r6 r7 r8 r9 hr h1 h255
    subst hr
    have h0 : r0 < 256 := hbytes r0 (by simp)
    unfold getvolsize
    simp only [endTransmission_fst, Wire.beginTransmission, Wire.write, List.nil_append,
      Wire.endTransmission, hcmd, ne_eq, not_true_eq_false, if_false, Wire.requestFrom, hresp,
      List.length_cons, List.length_nil, Wire.read, toUInt8_natCast r0 h0]
    simp [h1, h255]
  · intro hlen
    have hmod : ¬ (r.length % 256 = 10) := by omega
    unfold getvolsize
    simp only [endTransmission_fst, Wire.beginTransmission, Wire.write, List.nil_append,
      Wire.endTransmission, hcmd, ne_eq, not_true_eq_false, if_false, Wire.requestFrom, hresp,
      hmod]
    rw [Nat.mod_eq_of_lt (by omega)]

/-- C11 at a FAT32 answer with 64 blocks per cluster and 1048576 clusters. -/
theorem getvolsize_classification_witness :
    (∀ r1 r2 r3 r4 r5 r6 r7 r8 r9 : Nat,
      [1, 32, 64, 0, 0, 0, 0, 0, 16, 0] = [1, r1, r2, r3, r4, r5, r6, r7, r8, r9] →
      (getvolsize streamPeer ⟨[1, 32, 64, 0, 0, 0, 0, 0, 16, 0], [], [], []⟩).1
        = VolumeOutcome.success r1 (r2 + r3 * 2 ^ 8 + r4 * 2 ^ 16 + r5 * 2 ^ 24)
            (r6 + r7 * 2 ^ 8 + r8 * 2 ^ 16 + r9 * 2 ^ 24)
            (if r2 + r3 * 2 ^ 8 + r4 * 2 ^ 16 + r5 * 2 ^ 24 > 0
                ∧ r6 + r7 * 2 ^ 8 + r8 * 2 ^ 16 + r9 * 2 ^ 24 > 0 then
              some (totalBytes (r6 + r7 * 2 ^ 8 + r8 * 2 ^ 16 + r9 * 2 ^ 24)
                (r2 + r3 * 2 ^ 8 + r4 * 2 ^ 16 + r5 * 2 ^ 24))
             else none))
    ∧ (∀ r1 r2 r3 r4 r5 r6 r7 r8 r9 : Nat,
      [1, 32, 64, 0, 0, 0, 0, 0, 16, 0] = [255, r1, r2, r3, r4, r5, r6, r7, r8, r9] →
      (getvolsize streamPeer ⟨[1, 32, 64, 0, 0, 0, 0, 0, 16, 0], [], [], []⟩).1
          = VolumeOutcome.peerFailure
        ∧ (getvolsize streamPeer ⟨[1, 32, 64, 0, 0, 0, 0, 0, 16, 0], [], [], []⟩).2.rxBuffer = [])
    ∧ (∀ r0 r1 r2 r3 r4 r5 r6 r7 r8 r9 : Nat,
      [1, 32, 64, 0, 0, 0, 0, 0, 16, 0] = [r0, r1, r2, r3, r4, r5, r6, r7, r8, r9] →
      r0 ≠ 1 → r0 ≠ 255 →
      (getvolsize streamPeer ⟨[1, 32, 64, 0, 0, 0, 0, 0, 16, 0], [], [], []⟩).1
        = VolumeOutcome.unexpectedStatus r0)
    ∧ (([1, 32, 64, 0, 0, 0, 0, 0, 16, 0] : List Nat).length < 10 →
      (getvolsize streamPeer ⟨[1, 32, 64, 0, 0, 0, 0, 0, 16, 0], [], [], []⟩).1
        = VolumeOutcome.shortRead ([1, 32, 64, 0, 0, 0, 0, 0, 16, 0] : List Nat).length) :=
  getvolsize_classification streamPeer ⟨[1, 32, 64, 0, 0, 0, 0, 0, 16, 0], [], [], []⟩
    [1, 32, 64, 0, 0, 0, 0, 0, 16, 0] (by decide) rfl rfl

/-- Evaluation of `getvolsize` on the four kinds of answer: success (FAT32, 64
blocks per cluster, 1048576 clusters, 32 GiB), peer-reported failure with the
nine remaining bytes consumed, an unexpected status, and a 3-byte answer. -/
theorem getvolsize_examples :
    (getvolsize streamPeer ⟨[1, 32, 64, 0, 0, 0, 0, 0, 16, 0], [], [], []⟩).1
        = VolumeOutcome.success 32 64 1048576 (some 34359738368)
      ∧ (getvolsize streamPeer ⟨[255, 1, 2, 3, 4, 5, 6, 7, 8, 9], [], [], []⟩).1
        = VolumeOutcome.peerFailure
      ∧ (getvolsize streamPeer ⟨[255, 1, 2, 3, 4, 5, 6, 7, 8, 9], [], [], []⟩).2.rxBuffer = []
      ∧ (getvolsize streamPeer ⟨[7, 1, 2, 3, 4, 5, 6, 7, 8, 9], [], [], []⟩).1
        = VolumeOutcome.unexpectedStatus 7
      ∧ (getvolsize streamPeer ⟨[1, 32, 64], [], [], []⟩).1 = VolumeOutcome.shortRead 3 := by
  decide

/-- C12 as stated fails at 2^24 blocks per cluster and 2^31 clusters (the answer
`01 20 00 00 00 01 00 00 00 80`): both decoded values are non-zero 32-bit values,
the exact product `clusters * blocks * 512` is `2^64`, and the capacity computed
by `getvolsize` is 0. -/
theorem getvolsize_capacity_wraps :
    (getvolsize streamPeer ⟨[1, 32, 0, 0, 0, 1, 0, 0, 0, 128], [], [], []⟩).1
        = VolumeOutcome.success 32 16777216 2147483648 (some 0)
      ∧ totalBytes 2147483648 16777216 = 0
      ∧ 2147483648 * 16777216 * 512 = 18446744073709551616
      ∧ totalBytes 2147483648 16777216 ≠ 2147483648 * 16777216 * 512 := by
  decide

/-- C12, amended: for every non-zero blocks-per-cluster and every non-zero
32-bit cluster count decoded by `getvolsize` whose product is below 2^55, and so
whenever blocks-per-cluster is at most 128, the capacity `getvolsize` computes is
the exact product `clusters * blocks_per_cluster * 512`: neither 64-bit
multiplication wraps around. -/
theorem totalBytes_exact (volClusters volBlocks : Nat)
    (hc : 0 < volClusters) (hb : 0 < volBlocks)
    (hc32 : volClusters < 4294967296)
    (hbound : volBlocks ≤ 128 ∨ volClusters * volBlocks < 36028797018963968) :
    totalBytes volClusters volBlocks = volClusters * volBlocks * 512
      ∧ volClusters * volBlocks * 512 < 18446744073709551616
      ∧ (if volBlocks > 0 ∧ volClusters > 0 then some (totalBytes volClusters volBlocks)
          else none) = some (volClusters * volBlocks * 512) := by
  have hprod : volClusters * volBlocks < 36028797018963968 := by
    rcases hbound with h | h
    · have : volClusters * volBlocks ≤ volClusters * 128 := Nat.mul_le_mul_left _ h
      omega
    · exact h
  have hlt : volClusters * volBlocks * 512 < 18446744073709551616 := by omega
  have hexact : totalBytes volClusters volBlocks = volClusters * volBlocks * 512 := by
    unfold totalBytes toUInt64
    rw [Nat.mod_eq_of_lt (show volClusters < 18446744073709551616 by omega),
      Nat.mod_eq_of_lt (show volClusters * volBlocks < 18446744073709551616 by omega),
      Nat.mod_eq_of_lt hlt]
  refine ⟨hexact, hlt, ?_⟩
  rw [if_pos ⟨hb, hc⟩, hexact]

/-- C12, amended, at 64 blocks per cluster and 1048576 clusters (32 GiB). -/
theorem totalBytes_exact_witness :
    totalBytes 1048576 64 = 1048576 * 64 * 512
      ∧ 1048576 * 64 * 512 < 18446744073709551616
      ∧ (if 64 > 0 ∧ 1048576 > 0 then some (totalBytes 1048576 64) else none)
        = some (1048576 * 64 * 512) :=
  totalBytes_exact 1048576 64 (by decide) (by decide) (by decide) (Or.inl (by decide))

/-! ## storetoSD with an empty message -/

/-- C14 as stated fails: `storetoSD("/T", 'W', "")` performs one bus
transaction, the path transaction `F/T`, and the model peripheral's selected
path changes from empty to `/T`. -/
theorem storetoSD_empty_message_bus_traffic :
    (storetoSD modelPeripheral ⟨⟨fun _ => [], [], []⟩, [], [], []⟩ [47, 84] 87 []).log
        = [BusEvent.transmit [70, 47, 84] true]
      ∧ (storetoSD modelPeripheral ⟨⟨fun _ => [], [], []⟩, [], [], []⟩ [47, 84] 87 []).log ≠ []
      ∧ (storetoSD modelPeripheral ⟨⟨fun _ => [], [], []⟩, [], [], []⟩ [47, 84] 87
          []).peer.selected = [47, 84] := by
  decide

/-- C14, amended: for every filename and command byte, `storetoSD` called with
an empty message emits exactly one bus transaction, the path transaction
`'F' ++ filename` ended with release, and no data transaction; against the model
peripheral this selects the path and leaves the content of every file
unchanged. -/
theorem storetoSD_empty_message (t : Transport σ) (w : Wire σ) (filename : List Nat)
    (command : Nat) :
    (storetoSD t w filename command []).log
        = w.log ++ [BusEvent.transmit (70 :: filename) true]
      ∧ ∀ wp : Wire Peripheral,
          (storetoSD modelPeripheral wp filename command []).peer.files = wp.peer.files
            ∧ (storetoSD modelPeripheral wp filename command []).peer.selected = filename := by
  constructor
  · unfold storetoSD
    simp only [List.length_nil, if_true, ite_self]
    simp [Wire.endTransmission, writeFilename_eq, Wire.writeBytes, Wire.write,
      Wire.beginTransmission]
  · intro wp
    rw [storetoSD_peer_empty]
    exact ⟨rfl, rfl⟩

/-! ## Link health -/

theorem loadProbeStep_failed (t : Transport σ)
    (hfail : ∀ s bs stop, (t.endTransmission s bs stop).1 ≠ 0) (x : Wire σ × LinkHealth) :
    (loadProbeStep t x).2
      = if x.2.i2cSDCarderrcnt > 5 then { x.2 with Detected_i2cSDCard := false }
        else x.2.countError := by
  simp only [loadProbeStep, loadProbe, endTransmission_fst, hfail, if_false]
  split <;> rfl

theorem htmlProbeStep_failed (t : Transport σ)
    (hfail : ∀ s bs stop, (t.endTransmission s bs stop).1 ≠ 0) (x : Wire σ × LinkHealth) :
    (htmlProbeStep t x).2
      = (if x.2.i2cSDCarderrcnt > 5 then { x.2 with Detected_i2cSDCard := false }
         else x.2).countError := by
  simp only [htmlProbeStep, htmlProbe, endTransmission_fst, hfail, if_false]

theorem loadProbeStep_iterate (t : Transport σ)
    (hfail : ∀ s bs stop, (t.endTransmission s bs stop).1 ≠ 0) (x : Wire σ × LinkHealth) :
    ∀ n : Nat, ((loadProbeStep t)^[n] x).2
      = (fun h : LinkHealth => if h.i2cSDCarderrcnt > 5 then { h with Detected_i2cSDCard := false }
          else h.countError)^[n] x.2 := by
  intro n
  induction n with
  | zero => rfl
  | succ n ih =>
    rw [Function.iterate_succ_apply', Function.iterate_succ_apply', loadProbeStep_failed t hfail,
      ih]

theorem htmlProbeStep_iterate (t : Transport σ)
    (hfail : ∀ s bs stop, (t.endTransmission s bs stop).1 ≠ 0) (x : Wire σ × LinkHealth) :
    ∀ n : Nat, ((htmlProbeStep t)^[n] x).2
      = (fun h : LinkHealth => (if h.i2cSDCarderrcnt > 5 then { h with Detected_i2cSDCard := false }
          else h).countError)^[n] x.2 := by
  intro n
  induction n with
  | zero => rfl
  | succ n ih =>
    rw [Function.iterate_succ_apply', Function.iterate_succ_apply', htmlProbeStep_failed t hfail,
      ih]

/-- C15 as stated fails: from presence true and error count 0, six consecutive
failed probes of either kind leave presence true, with the error count at 6. -/
theorem six_failed_probes_keep_presence :
    ((loadProbeStep deadPeer)^[6] (⟨(), [], [], []⟩, ⟨true, 0⟩)).2 = ⟨true, 6⟩
      ∧ ((htmlProbeStep deadPeer)^[6] (⟨(), [], [], []⟩, ⟨true, 0⟩)).2 = ⟨true, 6⟩ := by
  decide

/-- C15, amended: starting from presence true and error count 0, seven
consecutive failed bus probes, as performed at the start of `loadFromI2CSD` or on
the path-failure branch of `listDirectory_HTML`, leave presence false; after six
of them presence is still true and the error count is 6. -/
theorem seven_failed_probes_clear_presence (t : Transport σ)
    (hfail : ∀ s bs stop, (t.endTransmission s bs stop).1 ≠ 0) (w : Wire σ) :
    ((loadProbeStep t)^[6] (w, ⟨true, 0⟩)).2 = ⟨true, 6⟩
      ∧ ((loadProbeStep t)^[7] (w, ⟨true, 0⟩)).2.Detected_i2cSDCard = false
      ∧ ((htmlProbeStep t)^[6] (w, ⟨true, 0⟩)).2 = ⟨true, 6⟩
      ∧ ((htmlProbeStep t)^[7] (w, ⟨true, 0⟩)).2.Detected_i2cSDCard = false := by
  rw [loadProbeStep_iterate t hfail, loadProbeStep_iterate t hfail,
    htmlProbeStep_iterate t hfail, htmlProbeStep_iterate t hfail]
  exact ⟨rfl, rfl, rfl, rfl⟩

/-- C15, amended, on the absent peer. -/
theorem seven_failed_probes_clear_presence_witness :
    ((loadProbeStep deadPeer)^[6] (⟨(), [], [], []⟩, ⟨true, 0⟩)).2 = ⟨true, 6⟩
      ∧ ((loadProbeStep deadPeer)^[7] (⟨(), [], [], []⟩, ⟨true, 0⟩)).2.Detected_i2cSDCard = false
      ∧ ((htmlProbeStep deadPeer)^[6] (⟨(), [], [], []⟩, ⟨true, 0⟩)).2 = ⟨true, 6⟩
      ∧ ((htmlProbeStep deadPeer)^[7] (⟨(), [], [], []⟩, ⟨true, 0⟩)).2.Detected_i2cSDCard
          = false :=
  seven_failed_probes_clear_presence deadPeer (fun _ _ _ => (by decide : (2 : Nat) ≠ 0))
    ⟨(), [], [], []⟩

/-- C16 as stated fails: seven failed probes flip presence to false, and the one
successful probe that follows sets it back to true, for either kind of probe. -/
theorem one_success_restores_presence :
    ((loadProbeStep flakyPeer)^[7]
        (⟨[2, 2, 2, 2, 2, 2, 2], [], [], []⟩, ⟨true, 0⟩)).2.Detected_i2cSDCard = false
      ∧ ((loadProbeStep flakyPeer)^[8]
        (⟨[2, 2, 2, 2, 2, 2, 2], [], [], []⟩, ⟨true, 0⟩)).2.Detected_i2cSDCard = true
      ∧ ((htmlProbeStep flakyPeer)^[7]
        (⟨[2, 2, 2, 2, 2, 2, 2], [], [], []⟩, ⟨true, 0⟩)).2.Detected_i2cSDCard = false
      ∧ ((htmlProbeStep flakyPeer)^[8]
        (⟨[2, 2, 2, 2, 2, 2, 2], [], [], []⟩, ⟨true, 0⟩)).2.Detected_i2cSDCard = true := by
  decide

/-- C16, amended: whatever the presence flag and the error count are, one
successful bus probe of either kind sets `Detected_i2cSDCard` to true and leaves
the error count as it was; in particular a single success flips presence back
after accumulated failures had flipped it to false. -/
theorem successful_probe_sets_presence (t : Transport σ) (w : Wire σ) (h : LinkHealth)
    (hok : (t.endTransmission w.peer [] true).1 = 0) :
    (loadProbe t w h).2.1 = { h with Detected_i2cSDCard := true }
      ∧ (htmlProbe t w h).1 = { h with Detected_i2cSDCard := true } := by
  simp [loadProbe, htmlProbe, Wire.endTransmission, Wire.beginTransmission, hok]

/-- C16, amended, at presence false and error count 6. -/
theorem successful_probe_sets_presence_witness :
    (loadProbe streamPeer ⟨[], [], [], []⟩ ⟨false, 6⟩).2.1
        = { (⟨false, 6⟩ : LinkHealth) with Detected_i2cSDCard := true }
      ∧ (htmlProbe streamPeer ⟨[], [], [], []⟩ ⟨false, 6⟩).1
        = { (⟨false, 6⟩ : LinkHealth) with Detected_i2cSDCard := true } :=
  successful_probe_sets_presence streamPeer ⟨[], [], [], []⟩ ⟨false, 6⟩ rfl

/-! ## Short chunk reads -/

theorem chunk_request_size (bytesRemaining : Nat) (hsmall : bytesRemaining < 2147483648) :
    toUInt32 (min (toInt32 bytesRemaining) 32) = min bytesRemaining 32 := by
  rw [toInt32_small _ hsmall]; unfold toUInt32; omega

/-- C18 fails for `listDirectory_HTML`: with the path and `'L'` transactions
accepted and the type-byte read coming back empty (a short read in the type
phase), `listDirectory_HTML("/")` returns with the held one-byte request as its
last bus action, so the bus-held flag is true on return; `listDirectory("/")` on
the same peer ends with a released transaction and the flag is false. -/
theorem listDirectory_HTML_leaves_bus_held :
    (listDirectory_HTML streamPeer ⟨[], [], [], []⟩ ⟨true, 0⟩ [47]).wire.log
        = [BusEvent.transmit [70, 47] true, BusEvent.transmit [] true,
           BusEvent.transmit [76] false, BusEvent.request 1 false]
      ∧ busHeld (listDirectory_HTML streamPeer ⟨[], [], [], []⟩ ⟨true, 0⟩ [47]).wire.log = true
      ∧ (listDirectory streamPeer 8 ⟨⟨[], [], [], []⟩, [], []⟩ [47]).map
          (fun r => busHeld r.2.wire.log) = some false := by
  decide

theorem busHeld_append (log : List BusEvent) (e : BusEvent) :
    busHeld (log ++ [e]) = match e with
      | BusEvent.transmit _ stop => !stop
      | BusEvent.request _ stop => !stop := by
  unfold busHeld
  rw [List.getLast?_append]
  cases e <;> rfl

theorem read_log (w : Wire σ) : w.read.2.log = w.log := by
  unfold Wire.read
  split <;> rfl

theorem readSizeLSB_log : ∀ (k i : Nat) (w : Wire σ) (acc : Nat),
    (readSizeLSB k i w acc).2.log = w.log := by
  intro k
  induction k with
  | zero => intro i w acc; rfl
  | succ k ih =>
    intro i w acc
    rw [readSizeLSB]
    simp only [ih, read_log]

theorem htmlNameLoop_held (t : Transport σ) :
    ∀ (fuel : Nat) (w : Wire σ) (buf : List Nat) (nameTimeout : Int),
      busHeld w.log = true → busHeld (htmlNameLoop t fuel w buf nameTimeout).2.log = true := by
  intro fuel
  induction fuel with
  | zero => intro w buf nt h; exact h
  | succ fuel ih =>
    intro w buf nt h
    have hreq : busHeld (Wire.requestFrom t w 1 false).2.log = true := by
      simp [Wire.requestFrom, busHeld_append]
    rw [htmlNameLoop]
    simp only
    split
    · exact hreq
    · split
      · rw [read_log]; exact hreq
      · split
        · rw [read_log]; exact hreq
        · exact ih _ _ _ (by rw [read_log]; exact hreq)

theorem collectLoop_held (t : Transport σ) :
    ∀ (fuel : Nat) (w : Wire σ) (entries : List Entry),
      busHeld w.log = true → busHeld (collectLoop t fuel w entries).2.log = true := by
  intro fuel
  induction fuel with
  | zero => intro w entries h; exact h
  | succ fuel ih =>
    intro w entries h
    have hreq : busHeld (Wire.requestFrom t w 1 false).2.log = true := by
      simp [Wire.requestFrom, busHeld_append]
    rw [collectLoop]
    simp only
    split
    · split
      · exact hreq
      · split
        · rw [read_log]; exact hreq
        · apply ih
          split
          · rw [readSizeLSB_log]
            simp [Wire.requestFrom, busHeld_append]
          · simp [Wire.requestFrom, busHeld_append]
    · exact h

/-- Whatever the peer does, once the path transaction and the `'L'` command are
accepted, `listDirectory_HTML` returns with the bus held: every exit of its
collection loop follows a request made without STOP and nothing releases the bus
afterwards. -/
theorem listDirectory_HTML_bus_held (t : Transport σ) (w : Wire σ) (h : LinkHealth)
    (dirname : List Nat) (hlisted : (listDirectory_HTML t w h dirname).outcome = HtmlOutcome.listed) :
    busHeld (listDirectory_HTML t w h dirname).wire.log = true := by
  unfold listDirectory_HTML at hlisted ⊢
  simp only at hlisted ⊢
  split
  · rename_i hf
    simp [hf] at hlisted
  · split
    · rename_i hf hc
      simp [hf, hc] at hlisted
    · apply collectLoop_held
      simp [Wire.endTransmission, busHeld_append]

theorem endTransmission_released (t : Transport σ) (w : Wire σ) :
    busHeld (Wire.endTransmission t w true).2.log = false := by
  simp [Wire.endTransmission, busHeld_append]

theorem requestFrom_released (t : Transport σ) (w : Wire σ) (n : Nat) :
    busHeld (Wire.requestFrom t w n true).2.log = false := by
  simp [Wire.requestFrom, busHeld_append]

theorem readSizeMSB_log : ∀ (k : Nat) (w : Wire σ) (acc : Nat),
    (readSizeMSB k w acc).2.log = w.log := by
  intro k
  induction k with
  | zero => intro w acc; rfl
  | succ k ih =>
    intro w acc
    rw [readSizeMSB]
    simp only [ih, read_log]

theorem checkExists_released (t : Transport σ) (w : Wire σ) (path : List Nat)
    (isDirectory : Bool) :
    busHeld (checkExists t w path isDirectory).2.log = false := by
  unfold checkExists sendFilename
  simp only
  repeat' split
  all_goals exact endTransmission_released t _

theorem readLoop_released (t : Transport σ) :
    ∀ (fuel : Nat) (w : Wire σ) (bytesRemaining : Nat) (out : List Nat),
      busHeld (readLoop t fuel w bytesRemaining out).wire.log = false := by
  intro fuel
  induction fuel with
  | zero => intro w n out; exact endTransmission_released t _
  | succ fuel ih =>
    intro w n out
    rw [readLoop]
    simp only
    split
    · split
      · split
        · exact ih _ _ _
        · exact endTransmission_released t _
      · exact endTransmission_released t _
    · exact endTransmission_released t _

theorem listLoop_released (t : Transport σ) :
    ∀ (fuel : Nat) (w : Wire σ) (rows : List PrintedRow) (r : List PrintedRow × Wire σ),
      listLoop t fuel w rows = some r → busHeld r.2.log = false := by
  intro fuel
  induction fuel with
  | zero => intro w rows r h; simp [listLoop] at h
  | succ fuel ih =>
    intro w rows r h
    rw [listLoop] at h
    simp only at h
    split at h
    · cases h; exact endTransmission_released t _
    · split at h
      · cases h; exact endTransmission_released t _
      · split at h
        · cases h
        · split at h
          · cases h; exact endTransmission_released t _
          · split at h
            · exact ih _ _ _ h
            · cases h; exact endTransmission_released t _

/-- The sibling operations do release the bus.  Whatever the peer delivers to
the reads (so also on a short read at any phase): `checkExists` always returns
with the bus released; `GetFileSize`, `removeFile`, `mkdir` and `rmdir` do once
their command transaction is accepted; `ReadFromSD` does once its size is read as
non-zero and its `'R'` command is accepted; `parseDirStream` and `listDirectory`
do whenever they return past the command phase. -/
theorem sibling_operations_release_bus (t : Transport σ) (w : Wire σ) (path : List Nat) :
    (∀ isDirectory, busHeld (checkExists t w path isDirectory).2.log = false)
    ∧ (t.commandError w.peer path 83 = 0 → busHeld (GetFileSize t w path).2.log = false)
    ∧ (t.commandError w.peer path 88 = 0 → busHeld (removeFile t w path).2.log = false)
    ∧ (t.commandError w.peer path 77 = 0 → busHeld (mkdir t w path).2.log = false)
    ∧ (t.commandError w.peer path 68 = 0 → busHeld (rmdir t w path).2.log = false)
    ∧ (∀ fuel n out, busHeld (readLoop t fuel w n out).wire.log = false)
    ∧ (∀ fuel (st st' : Listing σ), parseDirStream t fuel st = some st' →
        busHeld st'.wire.log = false)
    ∧ (∀ fuel rows r, listLoop t fuel w rows = some r → busHeld r.2.log = false) := by
  refine ⟨checkExists_released t w path, ?_, ?_, ?_, ?_, fun fuel n out => readLoop_released t fuel w n out,
    ?_, fun fuel rows r => listLoop_released t fuel w rows r⟩
  · intro hc
    simp only [Transport.commandError] at hc
    unfold GetFileSize
    simp only [endTransmission_fst, Wire.beginTransmission, Wire.write, Wire.writeBytes,
      List.nil_append, List.singleton_append]
    split
    · exact endTransmission_released t _
    · simp only [Wire.endTransmission, hc, ne_eq, not_true_eq_false, if_false]
      split
      · rw [readSizeMSB_log]; exact requestFrom_released t _ 4
      · exact requestFrom_released t _ 4
  · intro hc
    simp only [Transport.commandError] at hc
    unfold removeFile
    simp only [endTransmission_fst, Wire.beginTransmission, Wire.write, Wire.writeBytes,
      List.nil_append, List.singleton_append]
    split
    · exact endTransmission_released t _
    · simp only [Wire.endTransmission, hc, ne_eq, not_true_eq_false, if_false]
      split
      · split <;> (rw [read_log]; exact requestFrom_released t _ 1)
      · exact requestFrom_released t _ 1
  · intro hc
    simp only [Transport.commandError] at hc
    unfold mkdir
    simp only [endTransmission_fst, Wire.beginTransmission, Wire.write, Wire.writeBytes,
      List.nil_append, List.singleton_append]
    split
    · exact endTransmission_released t _
    · simp only [Wire.endTransmission, hc, ne_eq, not_true_eq_false, if_false]
      split
      · split <;> (rw [read_log]; exact requestFrom_released t _ 1)
      · exact requestFrom_released t _ 1
  · intro hc
    simp only [Transport.commandError] at hc
    unfold rmdir
    simp only [endTransmission_fst, Wire.beginTransmission, Wire.write, Wire.writeBytes,
      List.nil_append, List.singleton_append]
    split
    · exact endTransmission_released t _
    · simp only [Wire.endTransmission, hc, ne_eq, not_true_eq_false, if_false]
      split
      · split <;> (rw [read_log]; exact requestFrom_released t _ 1)
      · exact requestFrom_released t _ 1
  · intro fuel st st' h
    unfold parseDirStream at h
    split at h
    · cases h
    · cases h; exact endTransmission_released t _

/-! ## checkExists twice -/

theorem checkExists_existsPeripheral {φ : Type} (answer : φ → List Nat → Bool → Nat)
    (w : Wire (ExistsPeripheral φ)) (path : List Nat) (isDirectory : Bool) :
    (checkExists (existsPeripheral answer) w path isDirectory).1
        = decide (answer w.peer.fs path isDirectory % 256 = 1)
      ∧ (checkExists (existsPeripheral answer) w path isDirectory).2.peer.fs = w.peer.fs := by
  cases isDirectory <;>
    simp [checkExists, sendFilename, Wire.endTransmission, Wire.requestFrom, Wire.read,
      Wire.write, Wire.writeBytes, Wire.beginTransmission, existsPeripheral,
      ExistsPeripheral.onTransmit, toUInt8] <;>
    split <;> simp_all <;> omega

/-- C19: against a peripheral whose answer to an existence query is a function
of its filesystem state, the path and the kind asked for, and which no
transaction changes, with no bus errors: two successive calls of
`checkExists(path, isDirectory)` return the same boolean, and the filesystem
state is the same after both. -/
theorem checkExists_twice {φ : Type} (answer : φ → List Nat → Bool → Nat)
    (w : Wire (ExistsPeripheral φ)) (path : List Nat) (isDirectory : Bool) :
    (checkExists (existsPeripheral answer)
        (checkExists (existsPeripheral answer) w path isDirectory).2 path isDirectory).1
      = (checkExists (existsPeripheral answer) w path isDirectory).1
    ∧ (checkExists (existsPeripheral answer)
        (checkExists (existsPeripheral answer) w path isDirectory).2 path isDirectory).2.peer.fs
      = w.peer.fs := by
  have h1 := checkExists_existsPeripheral answer w path isDirectory
  have h2 := checkExists_existsPeripheral answer
    (checkExists (existsPeripheral answer) w path isDirectory).2 path isDirectory
  rw [h2.1, h2.2, h1.1, h1.2]
  exact ⟨rfl, rfl⟩

/-! ## listDirectory and the global vectors -/

theorem listDirectory_globals (t : Transport σ) (fuel : Nat) (st : Listing σ)
    (dirname : List Nat) (r : List PrintedRow × Listing σ)
    (h : listDirectory t fuel st dirname = some r) :
    r.2.fileNames = st.fileNames ∧ r.2.directoryNames = st.directoryNames := by
  unfold listDirectory at h
  simp only at h
  split at h
  · cases h; exact ⟨rfl, rfl⟩
  · split at h
    · cases h; exact ⟨rfl, rfl⟩
    · split at h
      · cases h
      · cases h; exact ⟨rfl, rfl⟩

/-- C20 fails: the peer streams the file `A` (5 bytes) and the directory `DIR`
and then the end marker.  `listDirectory("/")` prints the two rows and leaves the
global vectors `fileNames` and `directoryNames` empty as they were, while
`dirListFromSD("/")` on the same stream fills them with `(A, 5)` and `DIR`. -/
theorem listDirectory_does_not_populate :
    (listDirectory streamPeer 16
        ⟨⟨[70, 65, 0, 5, 0, 0, 0, 68, 68, 73, 82, 0, 0, 0, 0, 0, 255], [], [], []⟩, [], []⟩
        [47]).map (fun r => (r.1, r.2.fileNames, r.2.directoryNames))
      = some ([⟨70, 5, [65]⟩, ⟨68, 0, [68, 73, 82]⟩], [], [])
    ∧ (dirListFromSD streamPeer 16
        ⟨⟨[70, 65, 0, 5, 0, 0, 0, 68, 68, 73, 82, 0, 0, 0, 0, 0, 255], [], [], []⟩, [], []⟩
        [47]).map (fun st => (st.fileNames, st.directoryNames))
      = some ([([65], 5)], [[68, 73, 82]]) :=
  ⟨by decide, by decide⟩

/-! ## dirListFromSD and the old listing -/

/-- C21 as stated fails: on the absent peer the path transaction of
`dirListFromSD("/")` fails and the function returns with the old contents of
`fileNames` and `directoryNames` still in place; the same happens when only the
`'L'` command transaction fails. -/
theorem dirListFromSD_failure_keeps_old_listing :
    (dirListFromSD deadPeer 8 ⟨⟨(), [], [], []⟩, [([79, 76, 68], 7)], [[79]]⟩ [47]).map
        (fun st => (st.fileNames, st.directoryNames))
      = some ([([79, 76, 68], 7)], [[79]])
    ∧ (dirListFromSD flakyPeer 8 ⟨⟨[0, 2], [], [], []⟩, [([79, 76, 68], 7)], [[79]]⟩ [47]).map
        (fun st => (st.fileNames, st.directoryNames))
      = some ([([79, 76, 68], 7)], [[79]]) :=
  ⟨by decide, by decide⟩

/-- C21, amended: when the path transaction and the `'L'` command transaction
of `dirListFromSD` succeed, the listing is rebuilt from scratch: whatever
`fileNames` and `directoryNames` held before, the call ends exactly as it does
from two empty vectors, so the result holds only entries received during the
call.  When either transaction fails the call returns before the vectors are
cleared and both keep their old contents. -/
theorem dirListFromSD_rebuilds (t : Transport σ) (fuel : Nat) (st : Listing σ)
    (dirname : List Nat) :
    (t.pathError st.wire.peer dirname = 0 → t.commandError st.wire.peer dirname 76 = 0 →
      dirListFromSD t fuel st dirname
        = dirListFromSD t fuel { st with fileNames := [], directoryNames := [] } dirname)
    ∧ ((t.pathError st.wire.peer dirname ≠ 0 ∨ t.commandError st.wire.peer dirname 76 ≠ 0) →
      ∃ w : Wire σ, dirListFromSD t fuel st dirname = some { st with wire := w }) := by
  simp only [Transport.pathError, Transport.commandError]
  constructor
  · intro hp hc
    unfold dirListFromSD
    simp only [endTransmission_fst, Wire.beginTransmission, Wire.write, Wire.writeBytes,
      List.nil_append, List.singleton_append, hp, ne_eq, not_true_eq_false, if_false,
      Wire.endTransmission, hc]
    rfl
  · intro h
    unfold dirListFromSD
    simp only [endTransmission_fst, Wire.beginTransmission, Wire.write, Wire.writeBytes,
      List.nil_append, List.singleton_append, Wire.endTransmission]
    by_cases hp : (t.endTransmission st.wire.peer (70 :: dirname) true).1 = 0
    · have hc : (t.endTransmission (t.endTransmission st.wire.peer (70 :: dirname) true).2 [76]
          false).1 ≠ 0 := by
        rcases h with h | h
        · exact absurd hp h
        · exact h
      simp only [hp, ne_eq, not_true_eq_false, if_false, hc, not_false_eq_true, if_true]
      exact ⟨_, rfl⟩
    · simp only [hp, ne_eq, not_false_eq_true, if_true]
      exact ⟨_, rfl⟩

/-- Evaluation of `dirListFromSD("/")` with old contents in both vectors, on a
stream of the file `A` (5 bytes) and the directory `DIR`: only the two received
entries are in the result. -/
theorem dirListFromSD_discards_old_listing :
    (dirListFromSD streamPeer 16
        ⟨⟨[70, 65, 0, 5, 0, 0, 0, 68, 68, 73, 82, 0, 0, 0, 0, 0, 255], [], [], []⟩,
          [([79, 76, 68], 7)], [[79]]⟩ [47]).map (fun st => (st.fileNames, st.directoryNames))
      = some ([([65], 5)], [[68, 73, 82]]) := by
  decide

/-! ## The chunk requests of ReadFromSD -/

theorem printChunk_full : ∀ (k : Nat) (w : Wire σ) (out : List Nat), w.rxBuffer.length = k →
    (printChunk k w out).1 = true ∧ (printChunk k w out).2.2 = { w with rxBuffer := [] } := by
  intro k
  induction k with
  | zero =>
    intro w out h
    have : w.rxBuffer = [] := List.length_eq_zero.mp h
    cases w
    simp_all [printChunk]
  | succ k ih =>
    intro w out h
    obtain ⟨b, bs, hb⟩ : ∃ b bs, w.rxBuffer = b :: bs := by
      cases hr : w.rxBuffer with
      | nil => rw [hr] at h; simp at h
      | cons b bs => exact ⟨b, bs, rfl⟩
    have hr : w.read = ((b : Int), { w with rxBuffer := bs }) := by
      simp [Wire.read, hb]
    rw [printChunk]
    simp only [Wire.available, h, ne_eq, Nat.add_one_ne_zero, not_false_eq_true, if_true, hr]
    exact ih _ _ (by rw [hb] at h; simpa using h)

theorem expectedRequests_step (n : Nat) (hpos : 0 < n) :
    expectedRequests n = BusEvent.request (min n 32) false :: expectedRequests (n - min n 32) := by
  unfold expectedRequests
  by_cases h : n < 32
  · have h1 : n / 32 = 0 := Nat.div_eq_of_lt h
    have h2 : n % 32 = n := Nat.mod_eq_of_lt h
    have h3 : min n 32 = n := by omega
    simp [h1, h2, h3, Nat.pos_iff_ne_zero.mp hpos]
  · have h1 : n / 32 = (n - 32) / 32 + 1 := by omega
    have h2 : n % 32 = (n - 32) % 32 := by omega
    have h3 : min n 32 = 32 := by omega
    rw [h1, h2, h3, List.replicate_succ]
    rfl

theorem readLoop_full_count (t : Transport σ)
    (hfull : ∀ s k stop, ((t.requestFrom s k stop).1).length = k) :
    ∀ (fuel n : Nat) (w : Wire σ) (out : List Nat), n ≤ fuel → n < 2147483648 →
      (readLoop t fuel w n out).outcome = ReadOutcome.fileEnd
        ∧ (readLoop t fuel w n out).wire.log
          = w.log ++ expectedRequests n ++ [BusEvent.transmit w.txBuffer true] := by
  intro fuel
  induction fuel with
  | zero =>
    intro n w out hn _
    have : n = 0 := by omega
    subst this
    simp [readLoop, Wire.endTransmission, expectedRequests]
  | succ fuel ih =>
    intro n w out hn hsmall
    by_cases hpos : 0 < n
    · have hreq := chunk_request_size n hsmall
      have hlen : (List.take (min n 32) (t.requestFrom w.peer (min n 32) false).1).length
          = min n 32 := by
        rw [List.length_take, hfull]; omega
      have hmod : min n 32 % 256 = min n 32 := by omega
      have hpos2 : 0 < min n 32 := by omega
      have hrem : (n + 4294967296 - min n 32) % 4294967296 = n - min n 32 := by omega
      have hpc := printChunk_full (min n 32)
        { peer := (t.requestFrom w.peer (min n 32) false).2, txBuffer := w.txBuffer,
          rxBuffer := List.take (min n 32) (t.requestFrom w.peer (min n 32) false).1,
          log := w.log ++ [BusEvent.request (min n 32) false] } out hlen
      rw [readLoop]
      simp only [gt_iff_lt, hpos, if_true, hreq, Wire.requestFrom, hlen, hmod, hpos2, hpc.1,
        hpc.2, hrem]
      have h := ih (n - min n 32)
        { peer := (t.requestFrom w.peer (min n 32) false).2, txBuffer := w.txBuffer,
          rxBuffer := [], log := w.log ++ [BusEvent.request (min n 32) false] }
        (printChunk (min n 32)
          { peer := (t.requestFrom w.peer (min n 32) false).2, txBuffer := w.txBuffer,
            rxBuffer := List.take (min n 32) (t.requestFrom w.peer (min n 32) false).1,
            log := w.log ++ [BusEvent.request (min n 32) false] } out).2.1
        (by omega) (by omega)
      refine ⟨h.1, ?_⟩
      rw [h.2, expectedRequests_step n hpos]
      simp [List.append_assoc]
    · have : n = 0 := by omega
      subst this
      simp [readLoop, Wire.endTransmission, expectedRequests]

theorem expectedRequests_bounds (n : Nat) :
    (∀ e ∈ expectedRequests n, ∃ k, e = BusEvent.request k false ∧ 1 ≤ k ∧ k ≤ 32)
      ∧ ((expectedRequests n).map BusEvent.quantity).sum = n := by
  constructor
  · intro e he
    unfold expectedRequests at he
    rw [List.mem_append] at he
    rcases he with he | he
    · exact ⟨32, (List.mem_replicate.mp he).2, by omega, by omega⟩
    · by_cases h : n % 32 = 0
      · simp [h] at he
      · simp only [h, if_false, List.mem_singleton] at he
        exact ⟨n % 32, he, by omega, by omega⟩
  · unfold expectedRequests
    by_cases h : n % 32 = 0
    · simp only [h, if_true, List.append_nil, List.map_replicate, BusEvent.quantity,
        List.sum_replicate, smul_eq_mul]
      omega
    · simp only [h, if_false, List.map_append, List.map_replicate, BusEvent.quantity,
        List.sum_append, List.sum_replicate, smul_eq_mul, List.map_cons, List.map_nil,
        List.sum_cons, List.sum_nil]
      omega

theorem ReadFromSD_chunk_requests (t : Transport σ)
    (hok : ∀ s bs stop, (t.endTransmission s bs stop).1 = 0)
    (hfull : ∀ s k stop, ((t.requestFrom s k stop).1).length = k)
    (w : Wire σ) (filename : List Nat) (b0 b1 b2 b3 : Nat)
    (h0 : b0 < 256) (h1 : b1 < 256) (h2 : b2 < 256) (h3 : b3 < 256)
    (hresp : t.response w.peer filename 83 4 = [b0, b1, b2, b3])
    (hpos : 0 < b0 * 16777216 + b1 * 65536 + b2 * 256 + b3)
    (hsmall : b0 * 16777216 + b1 * 65536 + b2 * 256 + b3 < 2147483648) :
    (ReadFromSD t w filename).outcome = ReadOutcome.fileEnd
      ∧ (ReadFromSD t w filename).wire.log
        = w.log ++ [BusEvent.transmit (70 :: filename) true, BusEvent.transmit [83] false,
            BusEvent.request 4 true, BusEvent.transmit [82] false]
          ++ expectedRequests (b0 * 16777216 + b1 * 65536 + b2 * 256 + b3)
          ++ [BusEvent.transmit [] true] := by
  simp only [Transport.response] at hresp
  unfold ReadFromSD
  simp only [endTransmission_fst, hok, ne_eq, not_true_eq_false, if_false, writeFilename_eq,
    Wire.beginTransmission, Wire.write, Wire.writeBytes, List.nil_append, List.singleton_append,
    Wire.endTransmission, Wire.requestFrom, hresp, List.length_cons, List.length_nil]
  simp only [show (0 + 1 + 1 + 1 + 1) % 256 = 4 from rfl, if_true]
  rw [readSizeMSB_four _ b0 b1 b2 b3 rfl h0 h1 h2 h3]
  simp only [Nat.pos_iff_ne_zero.mp hpos, if_false]
  have h := readLoop_full_count t hfull (b0 * 16777216 + b1 * 65536 + b2 * 256 + b3)
    (b0 * 16777216 + b1 * 65536 + b2 * 256 + b3)
    { peer := (t.endTransmission (t.requestFrom (t.endTransmission
          (t.endTransmission w.peer (70 :: filename) true).2 [83] false).2 4 true).2 [82] false).2,
      txBuffer := [], rxBuffer := [],
      log := w.log ++ [BusEvent.transmit (70 :: filename) true] ++ [BusEvent.transmit [83] false]
        ++ [BusEvent.request 4 true] ++ [BusEvent.transmit [82] false] }
    [] (Nat.le_refl _) hsmall
  refine ⟨h.1, ?_⟩
  rw [h.2]
  simp [List.append_assoc]

theorem sizedPeer_requestFrom (w : Wire Unit) :
    Wire.requestFrom sizedPeer w 2147483648 false
      = (2147483648, (⟨(), w.txBuffer, List.replicate 2147483648 0,
            w.log ++ [BusEvent.request 2147483648 false]⟩ : Wire Unit)) := by
  have hk : ((2147483648 : Nat) = 4) = False := by simp
  have htake : List.take 2147483648 (List.replicate 2147483648 (0 : Nat))
      = List.replicate 2147483648 0 := by
    rw [List.take_replicate, Nat.min_self]
  unfold Wire.requestFrom sizedPeer
  simp only [hk, if_false, htake, List.length_replicate]

theorem sizedPeer_endTransmission (s : Unit) (bs : List Nat) (stop : Bool) :
    sizedPeer.endTransmission s bs stop = (0, ()) := rfl

theorem readLoop_sizedPeer (w : Wire Unit) :
    readLoop sizedPeer 2147483648 w 2147483648 []
      = ⟨ReadOutcome.chunkError, [],
          (⟨(), [], List.replicate 2147483648 0,
            w.log ++ [BusEvent.request 2147483648 false]
              ++ [BusEvent.transmit w.txBuffer true]⟩ : Wire Unit)⟩ := by
  have hreq : toUInt32 (min (toInt32 2147483648) 32) = 2147483648 := by decide
  have hfuel : (2147483648 : Nat) = 2147483647 + 1 := rfl
  conv => lhs; arg 2; rw [hfuel]
  rw [readLoop]
  simp only [hreq, sizedPeer_requestFrom, gt_iff_lt, show (0 : Nat) < 2147483648 from by decide,
    if_true, show (2147483648 : Nat) % 256 = 0 from rfl, Nat.lt_irrefl, if_false,
    Wire.endTransmission, sizedPeer_endTransmission]

/-- C22 fails at the file size `0x80000000`: the peer delivers the full count to
every read and reports the size `80 00 00 00`.  The chunk size
`min((int)bytesRemaining, 32)` is then the negative number -2147483648, the one
data request `ReadFromSD` makes asks for that count (2147483648 as an unsigned
quantity), not for between 1 and 32 bytes, and the read ends in the chunk error. -/
theorem ReadFromSD_large_file_request :
    min (toInt32 2147483648) 32 = -2147483648
      ∧ (ReadFromSD sizedPeer ⟨(), [], [], []⟩ [47, 84]).wire.log
        = [BusEvent.transmit [70, 47, 84] true, BusEvent.transmit [83] false,
           BusEvent.request 4 true, BusEvent.transmit [82] false,
           BusEvent.request 2147483648 false, BusEvent.transmit [] true]
      ∧ (ReadFromSD sizedPeer ⟨(), [], [], []⟩ [47, 84]).outcome = ReadOutcome.chunkError := by
  have hsize : readSizeMSB 4 (⟨(), [], [128, 0, 0, 0], [BusEvent.transmit [70, 47, 84] true,
      BusEvent.transmit [83] false, BusEvent.request 4 true]⟩ : Wire Unit) 0
      = (2147483648, ⟨(), [], [], [BusEvent.transmit [70, 47, 84] true,
          BusEvent.transmit [83] false, BusEvent.request 4 true]⟩) :=
    readSizeMSB_four _ 128 0 0 0 rfl (by decide) (by decide) (by decide) (by decide)
  have hrun : ReadFromSD sizedPeer ⟨(), [], [], []⟩ [47, 84]
      = readLoop sizedPeer 2147483648
          (⟨(), [], [], [BusEvent.transmit [70, 47, 84] true, BusEvent.transmit [83] false,
            BusEvent.request 4 true, BusEvent.transmit [82] false]⟩ : Wire Unit)
          2147483648 [] := by
    unfold ReadFromSD
    simp only [writeFilename_eq, Wire.beginTransmission, Wire.write, Wire.writeBytes,
      Wire.endTransmission, Wire.requestFrom, sizedPeer_endTransmission,
      show sizedPeer.requestFrom () 4 true = ([128, 0, 0, 0], ()) from rfl, List.nil_append, List.singleton_append,
      ne_eq, not_true_eq_false, if_false, if_true, List.take_succ_cons, List.take_zero,
      List.length_cons, List.length_nil, hsize, List.cons_append,
      show (0 + 1 + 1 + 1 + 1) % 256 = 4 from rfl,
      show ((2147483648 : Nat) = 0) = False from by simp]
  refine ⟨by decide, ?_, ?_⟩
  · rw [hrun, readLoop_sizedPeer]
    rfl
  · rw [hrun, readLoop_sizedPeer]

/-! ## The name loop and the collection loop of listDirectory_HTML -/

theorem htmlNameLoop_requests (t : Transport σ) :
    ∀ (fuel : Nat) (w : Wire σ) (buf : List Nat) (nameTimeout : Int),
      0 ≤ nameTimeout → nameTimeout ≤ 64 →
      ∃ k : Nat, k ≤ fuel ∧ (k : Int) ≤ 65 - nameTimeout
        ∧ (htmlNameLoop t fuel w buf nameTimeout).2.log
          = w.log ++ List.replicate k (BusEvent.request 1 false) := by
  intro fuel
  induction fuel with
  | zero =>
    intro w buf nt h0 h64
    exact ⟨0, Nat.le_refl 0, by omega, by simp [htmlNameLoop]⟩
  | succ fuel ih =>
    intro w buf nt h0 h64
    have hone : (Wire.requestFrom t w 1 false).2.log
        = w.log ++ List.replicate 1 (BusEvent.request 1 false) := by
      simp [Wire.requestFrom]
    rw [htmlNameLoop]
    simp only
    split
    · exact ⟨1, by omega, by omega, hone⟩
    · split
      · exact ⟨1, by omega, by omega, by rw [read_log]; exact hone⟩
      · split
        · exact ⟨1, by omega, by omega, by rw [read_log]; exact hone⟩
        · rename_i hlt
          obtain ⟨k, hk, hk65, hlog⟩ := ih (Wire.requestFrom t w 1 false).2.read.2
            (if buf.length < 31 then
              buf ++ [toUInt8 (Wire.requestFrom t w 1 false).2.read.1] else buf)
            (nt + 1) (by omega) (by omega)
          refine ⟨k + 1, by omega, by push_cast; omega, ?_⟩
          rw [hlog, read_log, hone, List.append_assoc, ← List.replicate_add, Nat.add_comm 1 k]

set_option maxRecDepth 8192

/-- C23 as stated fails: against a peer that never sends a NUL the name loop of
`listDirectory_HTML` makes 65 name-byte requests before it gives up, with the
bound 65 passed by the function as well as with a larger one; 31 characters are
kept. -/
theorem htmlNameLoop_stuck_peer :
    (htmlNameLoop stuckPeer 65 ⟨(), [], [], []⟩ [] 0).2.log
        = List.replicate 65 (BusEvent.request 1 false)
      ∧ (htmlNameLoop stuckPeer 200 ⟨(), [], [], []⟩ [] 0).2.log
        = List.replicate 65 (BusEvent.request 1 false)
      ∧ (htmlNameLoop stuckPeer 65 ⟨(), [], [], []⟩ [] 0).1 = List.replicate 31 65 :=
  ⟨by decide, by decide, by decide⟩

/-- C23, amended: in `listDirectory_HTML`, for every peer (including a stuck peer
that never sends a NUL) and whatever bound is put on the iterations, the name
phase of one entry performs at most 65 name-byte requests before it gives up:
the loop leaves when `++nameTimeout > 64`, which the 65th character read makes
true. -/
theorem htmlNameLoop_at_most_65_requests (t : Transport σ) (fuel : Nat) (w : Wire σ) :
    ∃ k : Nat, k ≤ 65
      ∧ (htmlNameLoop t fuel w [] 0).2.log
        = w.log ++ List.replicate k (BusEvent.request 1 false) := by
  obtain ⟨k, _, hk, hlog⟩ := htmlNameLoop_requests t fuel w [] 0 (by omega) (by omega)
  exact ⟨k, by omega, hlog⟩

theorem htmlNameLoop_name (t : Transport σ) :
    ∀ (fuel : Nat) (w : Wire σ) (buf : List Nat) (nameTimeout : Int),
      buf.length ≤ 31 → (∀ c ∈ buf, c ≠ 0) →
      (htmlNameLoop t fuel w buf nameTimeout).1.length ≤ 31
        ∧ ∀ c ∈ (htmlNameLoop t fuel w buf nameTimeout).1, c ≠ 0 := by
  intro fuel
  induction fuel with
  | zero => intro w buf nt hlen hz; exact ⟨hlen, hz⟩
  | succ fuel ih =>
    intro w buf nt hlen hz
    rw [htmlNameLoop]
    simp only
    split
    · exact ⟨hlen, hz⟩
    · split
      · exact ⟨hlen, hz⟩
      · rename_i hc
        have hstore : (if buf.length < 31 then
              buf ++ [toUInt8 (Wire.requestFrom t w 1 false).2.read.1] else buf).length ≤ 31
            ∧ ∀ c ∈ (if buf.length < 31 then
              buf ++ [toUInt8 (Wire.requestFrom t w 1 false).2.read.1] else buf), c ≠ 0 := by
          split
          · refine ⟨by rw [List.length_append]; simp; omega, ?_⟩
            intro c hcm
            rw [List.mem_append] at hcm
            rcases hcm with hcm | hcm
            · exact hz c hcm
            · rw [List.mem_singleton] at hcm
              rw [hcm]; exact hc
          · exact ⟨hlen, hz⟩
        split
        · exact hstore
        · exact ih _ _ _ hstore.1 hstore.2

theorem collectLoop_bounds (t : Transport σ) :
    ∀ (fuel : Nat) (w : Wire σ) (entries : List Entry),
      entries.length ≤ 128 →
      (∀ e ∈ entries, e.entryName.length ≤ 31 ∧ ∀ c ∈ e.entryName, c ≠ 0) →
      (collectLoop t fuel w entries).1.length ≤ 128
        ∧ ∀ e ∈ (collectLoop t fuel w entries).1,
            e.entryName.length ≤ 31 ∧ ∀ c ∈ e.entryName, c ≠ 0 := by
  intro fuel
  induction fuel with
  | zero => intro w entries hlen hall; exact ⟨hlen, hall⟩
  | succ fuel ih =>
    intro w entries hlen hall
    rw [collectLoop]
    simp only
    split
    · rename_i hlt
      split
      · exact ⟨hlen, hall⟩
      · split
        · exact ⟨hlen, hall⟩
        · apply ih
          · rw [List.length_append]; simp; omega
          · intro e he
            rw [List.mem_append] at he
            rcases he with he | he
            · exact hall e he
            · rw [List.mem_singleton] at he
              rw [he]
              exact htmlNameLoop_name t 65 _ [] 0 (by simp) (by simp)
    · exact ⟨hlen, hall⟩

/-- C24: in `listDirectory_HTML`, for every peer, however long the names it
streams and however many entries it sends, at most 128 entries are collected
(an entry is stored at index `totalEntries` only while that is below 128, so at
an index of at most 127) and every stored name has at most 31 characters, none
of them NUL (a character is stored at index `nameIdx` only while that is below
31, so at an index of at most 30, and byte 31 of the zeroed buffer stays the
terminator). -/
theorem listDirectory_HTML_buffer_bounds (t : Transport σ) (w : Wire σ) (h : LinkHealth)
    (dirname : List Nat) :
    (listDirectory_HTML t w h dirname).entries.length ≤ 128
      ∧ ∀ e ∈ (listDirectory_HTML t w h dirname).entries,
          e.entryName.length ≤ 31 ∧ ∀ c ∈ e.entryName, c ≠ 0 := by
  unfold listDirectory_HTML
  simp only
  split
  · simp
  · split
    · simp
    · exact collectLoop_bounds t 128 _ [] (by simp) (by simp)

/-- C25 fails: a short read in the name phase or in the size phase of an entry
does not end the enumeration of `listDirectory_HTML`, and the incomplete entry
is stored.  On the stream `F A` that then runs dry (short read in the name
phase) the entry `(F, A, 0)` is collected, after a size request and before
another type request; on `F A NUL 01 02` (short read in the size phase) it is
collected as well.  Against the scripted answers `F`, `A`, nothing, `05 00 00
00`, `D`, `B`, NUL, `00 00 00 00`, `FF` the entry cut in its name is stored and
the next entry is requested and collected too.  `listDirectory` on the first two
streams prints no row. -/
theorem listDirectory_HTML_short_read_continues :
    (listDirectory_HTML streamPeer ⟨[70, 65], [], [], []⟩ ⟨true, 0⟩ [47]).entries
        = [⟨70, [65], 0⟩]
      ∧ (listDirectory_HTML streamPeer ⟨[70, 65], [], [], []⟩ ⟨true, 0⟩ [47]).wire.log
        = [BusEvent.transmit [70, 47] true, BusEvent.transmit [] true,
           BusEvent.transmit [76] false, BusEvent.request 1 false, BusEvent.request 1 false,
           BusEvent.request 1 false, BusEvent.request 4 false, BusEvent.request 1 false]
      ∧ (listDirectory_HTML streamPeer ⟨[70, 65, 0, 1, 2], [], [], []⟩ ⟨true, 0⟩ [47]).entries
        = [⟨70, [65], 0⟩]
      ∧ (listDirectory_HTML scriptPeer
          ⟨[[70], [65], [], [5, 0, 0, 0], [68], [66], [0], [0, 0, 0, 0], [255]], [], [], []⟩
          ⟨true, 0⟩ [47]).entries = [⟨70, [65], 5⟩, ⟨68, [66], 0⟩]
      ∧ (listDirectory streamPeer 8 ⟨⟨[70, 65], [], [], []⟩, [], []⟩ [47]).map (fun r => r.1)
        = some []
      ∧ (listDirectory streamPeer 8 ⟨⟨[70, 65, 0, 1, 2], [], [], []⟩, [], []⟩ [47]).map
          (fun r => r.1) = some [] :=
  ⟨by decide, by decide, by decide, by decide, by decide, by decide⟩

/-! ## Pagination -/

theorem wrapInt_eq (x : Int) (hlo : -2147483648 ≤ x) (hhi : x ≤ 2147483647) : wrapInt x = x := by
  unfold wrapInt toInt32 toUInt32
  split <;> omega

theorem displayLoop_mem (e T : Int) :
    ∀ (fuel : Nat) (i : Int), (T - i).toNat ≤ fuel →
      (∀ j, j ∈ displayLoop e T fuel i ↔ i ≤ j ∧ j < e ∧ j < T)
        ∧ (displayLoop e T fuel i).Pairwise (· < ·) := by
  intro fuel
  induction fuel with
  | zero =>
    intro i hf
    refine ⟨fun j => ?_, by simp [displayLoop]⟩
    simp only [displayLoop, List.not_mem_nil, false_iff]
    omega
  | succ fuel ih =>
    intro i hf
    rw [displayLoop]
    split
    · rename_i hi
      obtain ⟨hmem, hpw⟩ := ih (i + 1) (by omega)
      refine ⟨fun j => ?_, ?_⟩
      · rw [List.mem_cons, hmem]
        omega
      · rw [List.pairwise_cons]
        refine ⟨fun j hj => ?_, hpw⟩
        have := (hmem j).mp hj
        omega
    · rename_i hi
      refine ⟨fun j => ?_, List.Pairwise.nil⟩
      simp only [List.not_mem_nil, false_iff]
      omega


theorem totalPages_eq (perPage T : Int) (hper : 1 ≤ perPage) (hT0 : 0 ≤ T)
    (hfit : T + perPage ≤ 2147483647) :
    totalPages T perPage = (T + perPage - 1) / perPage
      ∧ (totalPages T perPage - 1) * perPage < T ∧ T ≤ totalPages T perPage * perPage
      ∧ 0 ≤ totalPages T perPage := by
  have hq1 := Int.ediv_mul_le (T + perPage - 1) (show perPage ≠ 0 by omega)
  have hq2 := Int.lt_ediv_add_one_mul_self (T + perPage - 1) (show 0 < perPage by omega)
  have hq0 : 0 ≤ (T + perPage - 1) / perPage := Int.ediv_nonneg (by omega) (by omega)
  have hqle : (T + perPage - 1) / perPage ≤ T + perPage - 1 := by
    have : (T + perPage - 1) / perPage * 1 ≤ (T + perPage - 1) / perPage * perPage :=
      Int.mul_le_mul_of_nonneg_left hper hq0
    omega
  have hdef : totalPages T perPage = (T + perPage - 1) / perPage := by
    unfold totalPages
    rw [wrapInt_eq (T + perPage) (by omega) (by omega),
      wrapInt_eq (T + perPage - 1) (by omega) (by omega),
      Int.tdiv_eq_ediv (by omega) (by omega), wrapInt_eq _ (by omega) (by omega)]
  rw [hdef]
  refine ⟨rfl, ?_, ?_, hq0⟩
  · have : ((T + perPage - 1) / perPage - 1) * perPage
        = (T + perPage - 1) / perPage * perPage - perPage := by ring
    omega
  · have : ((T + perPage - 1) / perPage + 1) * perPage
        = (T + perPage - 1) / perPage * perPage + perPage := by ring
    omega

theorem displayedIndices_page (perPage T p : Int) (hper : 1 ≤ perPage) (hT0 : 0 ≤ T)
    (hT : T ≤ 128) (hfit : T + perPage ≤ 2147483647)
    (hp1 : 1 ≤ p) (hp : p ≤ totalPages T perPage) :
    (∀ i, i ∈ displayedIndices p perPage T ↔ (p - 1) * perPage ≤ i ∧ i < min (p * perPage) T)
      ∧ (displayedIndices p perPage T).Pairwise (· < ·)
      ∧ (p - 1) * perPage ∈ displayedIndices p perPage T := by
  obtain ⟨_, hlo, hhi, _⟩ := totalPages_eq perPage T hper hT0 hfit
  have hstart_le : (p - 1) * perPage ≤ (totalPages T perPage - 1) * perPage :=
    Int.mul_le_mul_of_nonneg_right (by omega) (by omega)
  have hstart0 : 0 ≤ (p - 1) * perPage := Int.mul_nonneg (by omega) (by omega)
  have hend : p * perPage = (p - 1) * perPage + perPage := by ring
  have hT1 : T ≠ 0 := by omega
  have hpb : p ≤ T + perPage := by
    have h1 : p * 1 ≤ p * perPage := Int.mul_le_mul_of_nonneg_left hper (by omega)
    omega
  have hs : startIdx p perPage = (p - 1) * perPage := by
    unfold startIdx
    rw [wrapInt_eq (p - 1) (by omega) (by omega), wrapInt_eq _ (by omega) (by omega)]
  have he : endIdx p perPage = p * perPage := by
    unfold endIdx
    rw [wrapInt_eq _ (by omega) (by omega)]
  obtain ⟨hmem, hpw⟩ := displayLoop_mem (p * perPage) T (T - (p - 1) * perPage).toNat
    ((p - 1) * perPage) (Nat.le_refl _)
  have hd : displayedIndices p perPage T
      = displayLoop (p * perPage) T (T - (p - 1) * perPage).toNat ((p - 1) * perPage) := by
    unfold displayedIndices
    rw [if_neg hT1, hs, he]
  rw [hd]
  refine ⟨fun i => ?_, hpw, ?_⟩
  · rw [hmem]; omega
  · rw [hmem]; omega


/-- C26 as stated fails at `perPage = 2147483647` with 2 collected entries: the
`int` sum `totalEntries + perPage` wraps, the page count computed is -1, and
`ceil(2 / 2147483647)` is 1. -/
theorem pagination_wraps_at_large_perPage :
    totalPages 2 2147483647 = -1 ∧ ⌈(2 : ℚ) / 2147483647⌉ = 1 := by
  refine ⟨by decide, ?_⟩
  rw [Int.ceil_eq_iff]
  norm_num

/-- C26, amended: for every `perPage >= 1` and every number `T` of collected
entries (`0 <= T <= 128`) for which the `int` sum `T + perPage` does not overflow
(so for every `perPage` up to 2147483519), the page count is
`totalPages = ceil(T / perPage)`, and on each page `p = 1..totalPages` the
displayed indices are exactly those of `[(p-1)*perPage, min(p*perPage, T))`, in
increasing order, at least one, all within `0..T-1`; every index of `0..T-1` is
displayed on exactly one page. -/
theorem pagination_partition (perPage T : Int) (hper : 1 ≤ perPage) (hT0 : 0 ≤ T)
    (hT : T ≤ 128) (hfit : T + perPage ≤ 2147483647) :
    totalPages T perPage = ⌈(T : ℚ) / (perPage : ℚ)⌉
      ∧ (∀ p, 1 ≤ p → p ≤ totalPages T perPage →
          (∀ i, i ∈ displayedIndices p perPage T
              ↔ (p - 1) * perPage ≤ i ∧ i < min (p * perPage) T)
            ∧ (displayedIndices p perPage T).Pairwise (· < ·)
            ∧ displayedIndices p perPage T ≠ []
            ∧ ∀ i ∈ displayedIndices p perPage T, 0 ≤ i ∧ i ≤ T - 1)
      ∧ (∀ i, 0 ≤ i → i < T →
          ∃! p, 1 ≤ p ∧ p ≤ totalPages T perPage ∧ i ∈ displayedIndices p perPage T) := by
  obtain ⟨_, hlo, hhi, hq0⟩ := totalPages_eq perPage T hper hT0 hfit
  have hP : (0 : ℚ) < (perPage : ℚ) := by exact_mod_cast (show (0 : Int) < perPage by omega)
  refine ⟨?_, ?_, ?_⟩
  · symm
    rw [Int.ceil_eq_iff]
    constructor
    · rw [lt_div_iff₀ hP]
      exact_mod_cast hlo
    · rw [div_le_iff₀ hP]
      exact_mod_cast hhi
  · intro p hp1 hp
    obtain ⟨hmem, hpw, hfirst⟩ := displayedIndices_page perPage T p hper hT0 hT hfit hp1 hp
    refine ⟨hmem, hpw, List.ne_nil_of_mem hfirst, ?_⟩
    intro i hi
    have h := (hmem i).mp hi
    have hstart0 : 0 ≤ (p - 1) * perPage := Int.mul_nonneg (by omega) (by omega)
    omega
  · intro i hi0 hiT
    have hd1 := Int.ediv_mul_le i (show perPage ≠ 0 by omega)
    have hd2 := Int.lt_ediv_add_one_mul_self i (show 0 < perPage by omega)
    have hd0 : 0 ≤ i / perPage := Int.ediv_nonneg hi0 (by omega)
    have hp0 : i / perPage + 1 ≤ totalPages T perPage := by
      have : i / perPage * perPage < totalPages T perPage * perPage := by omega
      have := Int.lt_of_mul_lt_mul_right this (by omega)
      omega
    refine ⟨i / perPage + 1, ⟨by omega, hp0, ?_⟩, ?_⟩
    · rw [(displayedIndices_page perPage T (i / perPage + 1) hper hT0 hT hfit (by omega) hp0).1]
      have : i / perPage + 1 - 1 = i / perPage := by omega
      rw [this]
      omega
    · rintro p' ⟨hp1', hp', hmem'⟩
      rw [(displayedIndices_page perPage T p' hper hT0 hT hfit hp1' hp').1] at hmem'
      have e1 : p' * perPage = (p' - 1) * perPage + perPage := by ring
      have e2 : (i / perPage + 1) * perPage = i / perPage * perPage + perPage := by ring
      have h1 : (p' - 1) * perPage < (i / perPage + 1) * perPage := by omega
      have h2 : i / perPage * perPage < p' * perPage := by omega
      have := Int.lt_of_mul_lt_mul_right h1 (by omega)
      have := Int.lt_of_mul_lt_mul_right h2 (by omega)
      omega


/-- C26, amended, at 45 collected entries and 20 per page. -/
theorem pagination_partition_witness :
    totalPages 45 20 = ⌈((45 : Int) : ℚ) / ((20 : Int) : ℚ)⌉
      ∧ (∀ p, 1 ≤ p → p ≤ totalPages 45 20 →
          (∀ i, i ∈ displayedIndices p 20 45 ↔ (p - 1) * 20 ≤ i ∧ i < min (p * 20) 45)
            ∧ (displayedIndices p 20 45).Pairwise (· < ·)
            ∧ displayedIndices p 20 45 ≠ []
            ∧ ∀ i ∈ displayedIndices p 20 45, 0 ≤ i ∧ i ≤ 45 - 1)
      ∧ (∀ i, 0 ≤ i → i < 45 →
          ∃! p, 1 ≤ p ∧ p ≤ totalPages 45 20 ∧ i ∈ displayedIndices p 20 45) :=
  pagination_partition 20 45 (by decide) (by decide) (by decide) (by decide)

/-- Evaluation at 45 collected entries and 20 per page: three pages, showing the
indices 0..19, 20..39 and 40..44. -/
theorem pagination_example :
    totalPages 45 20 = 3
      ∧ displayedIndices 1 20 45 = (List.range 20).map (fun k => (k : Int))
      ∧ displayedIndices 2 20 45 = (List.range 20).map (fun k => (k : Int) + 20)
      ∧ displayedIndices 3 20 45 = [40, 41, 42, 43, 44] :=
  ⟨by decide, by decide, by decide, by decide⟩

end SDCard
